import Mathlib

/-!
Shallow embedding of the terraform-provider-shoehorn core logic:
the HTTP transport (`doRequest` in internal/client), the order-insensitive
equivalence helpers (`relationsEquivalent`, `linksEquivalent`,
`licensesEquivalent`, `membersEquivalent`), the member diff
(`computeMemberDiff`), the cursor-pagination loop (`ListEntities`), and the
Read/Delete reconciliation flows of the entity, team, API-key and k8s-agent
resources.

External collaborators (Go's `encoding/json` codec, `net/http`'s status
text table, the network) are modelled as explicit parameters: a parse
function `String → Option α` stands for `json.Unmarshal` (with `none` for
an unmarshal error), a marshal function for `json.Marshal`, and per-attempt
outcome functions for the network.  Everything the repository itself
computes is translated directly from the Go source.
-/

namespace Shoehorn

/-! ## HTTP transport core (internal/client, `doRequest`) -/

/-- `maxRetries` constant from the client package. -/
def maxRetries : Nat := 3

/-- Whether `pat` is a prefix of `l` (on character lists, so that it
computes by structural recursion). -/
def isPrefixOfList : List Char → List Char → Bool
  | [], _ => true
  | _ :: _, [] => false
  | a :: as, b :: bs => a == b && isPrefixOfList as bs

/-- Substring search on character lists. -/
def containsList (pat : List Char) : List Char → Bool
  | [] => isPrefixOfList pat []
  | c :: cs => isPrefixOfList pat (c :: cs) || containsList pat cs

/-- `strings.Contains(s, pat)`. -/
def containsStr (s pat : String) : Bool :=
  containsList pat.data s.data

/-- `isRetryable`: transient connection errors worth retrying, matched on
the error message exactly as in the source. -/
def isRetryable (msg : String) : Bool :=
  containsStr msg "EOF" ||
  containsStr msg "connection reset" ||
  containsStr msg "connection refused" ||
  containsStr msg "broken pipe" ||
  containsStr msg "context deadline exceeded" ||
  containsStr msg "Client.Timeout"

/-- Outcome of one physical HTTP attempt, as seen by `doRequest`:
`HTTPClient.Do` fails, `io.ReadAll` of the body fails (status already
known), or a complete response arrives. -/
inductive AttemptOutcome where
  | netErr (msg : String)
  | bodyErr (status : Nat) (msg : String)
  | resp (status : Nat) (body : String)
deriving DecidableEq, Repr

/-- The error values `doRequest` can produce, mirroring each construction
site in the source (`fmt.Errorf` wrappers, `&APIError{...}`, `ctx.Err()`). -/
inductive ReqError where
  | ctxErr
  | executingRequest (msg : String)
  | readingBody (msg : String)
  | apiError (status : Nat) (code : String) (message : String)
  | afterAttempts (n : Nat) (last : Option ReqError)

/-- Result of `json.Unmarshal(respBody, apiErr)`: `ok` is whether the
unmarshal returned no error; `code`/`message` are the field values after
the call (Go may leave fields partially populated on a failed decode,
and leaves them untouched — empty — on syntactically invalid JSON). -/
structure ErrBodyParse where
  ok : Bool
  code : String
  message : String
deriving DecidableEq, Repr

/-- The environment of one `doRequest` call: what each attempt returns,
whether the context is already cancelled when the backoff select for
attempt `i` runs, how the error body unmarshals, and `http.StatusText`. -/
structure HttpEnv where
  attempt : Nat → AttemptOutcome
  canceledBefore : Nat → Bool
  parseErrBody : String → ErrBodyParse
  statusText : Nat → String

/-- Result triple of `doRequest` (`[]byte, int, error`), instrumented with
the number of HTTP attempts actually performed. -/
structure DoResult where
  body : Option String
  status : Nat
  error : Option ReqError
  attemptsMade : Nat

/-- The 4xx branch of `doRequest`: build an `APIError` by unmarshaling the
body as `{code, message}`; on unmarshal error the raw body becomes the
message; if both fields end up empty, fall back to the raw body, or to
`http.StatusText` when the body is empty. -/
def mkApiError (env : HttpEnv) (status : Nat) (body : String) : ReqError :=
  let p := env.parseErrBody body
  let code := p.code
  let message := if p.ok then p.message else body
  if message = "" ∧ code = "" then
    .apiError status code (if body ≠ "" then body else env.statusText status)
  else
    .apiError status code message

/-- The retry loop of `doRequest`: `remaining` is the fuel
(`maxRetries - attempt`), `attempt` the 0-based attempt index, `lastErr`
the Go `lastErr` variable. -/
def doRequestLoop (env : HttpEnv) :
    Nat → Nat → Option ReqError → Nat → DoResult
  | 0, _, lastErr, made =>
      ⟨none, 0, some (.afterAttempts maxRetries lastErr), made⟩
  | remaining + 1, attempt, lastErr, made =>
      if attempt > 0 ∧ env.canceledBefore attempt then
        ⟨none, 0, some .ctxErr, made⟩
      else
        match env.attempt attempt with
        | .netErr msg =>
            if isRetryable msg then
              doRequestLoop env remaining (attempt + 1)
                (some (.executingRequest msg)) (made + 1)
            else
              ⟨none, 0, some (.executingRequest msg), made + 1⟩
        | .bodyErr status msg =>
            if isRetryable msg then
              doRequestLoop env remaining (attempt + 1)
                (some (.readingBody msg)) (made + 1)
            else
              ⟨none, status, some (.readingBody msg), made + 1⟩
        | .resp status body =>
            if status ≥ 500 then
              doRequestLoop env remaining (attempt + 1)
                (some (.apiError status "" body)) (made + 1)
            else if status ≥ 400 then
              ⟨none, status, some (mkApiError env status body), made + 1⟩
            else
              ⟨some body, status, none, made + 1⟩

/-- `doRequest`: run the loop from attempt 0 with `lastErr = nil`. -/
def doRequest (env : HttpEnv) : DoResult :=
  doRequestLoop env maxRetries 0 none 0

/-- An attempt outcome that `doRequest` treats as transient: a retryable
transport error, a retryable body-read error, or a status ≥ 500. -/
def transientOutcome : AttemptOutcome → Bool
  | .netErr msg => isRetryable msg
  | .bodyErr _ msg => isRetryable msg
  | .resp status _ => status ≥ 500

/-- The `lastErr` value recorded for a transient attempt outcome. -/
def transientErrOf : AttemptOutcome → ReqError
  | .netErr msg => .executingRequest msg
  | .bodyErr _ msg => .readingBody msg
  | .resp status body => .apiError status "" body

/-! ## Order-insensitive equivalence helpers (entity_resource / team resource) -/

/-- The `{type, target}` record both `relationsEquivalent` and the
terraform state serialization use. -/
structure Rel where
  type_ : String
  target : String
deriving DecidableEq, Repr

/-- The `{name, url, icon}` link record of `linksEquivalent`. -/
structure Link where
  name : String
  url : String
  icon : String
deriving DecidableEq, Repr

/-- The license record of `licensesEquivalent` (seats is a Go `int`). -/
structure Lic where
  title : String
  vendor : String
  purchased : String
  expires : String
  seats : Int
  cost : String
  contract : String
  notes : String
deriving DecidableEq, Repr

/-- The `{user_id, role}` member record (`tfMemberEntry`). -/
structure Member where
  userID : String
  role : String
deriving DecidableEq, Repr

/-- Matching key of a relation: `r.Type + "|" + r.Target`. -/
def relKey (r : Rel) : String := r.type_ ++ "|" ++ r.target

/-- Matching key of a link: `l.Name + "|" + l.URL + "|" + l.Icon`. -/
def linkKey (l : Link) : String := l.name ++ "|" ++ l.url ++ "|" ++ l.icon

/-- Matching key of a license: the `fmt.Sprintf("%s|%s|%s|%s|%d|%s|%s|%s", ...)`
signature over all eight fields. -/
def licKey (l : Lic) : String :=
  l.title ++ "|" ++ l.vendor ++ "|" ++ l.purchased ++ "|" ++ l.expires ++ "|" ++
    toString l.seats ++ "|" ++ l.cost ++ "|" ++ l.contract ++ "|" ++ l.notes

/-- Matching key of a member: `m.UserID + "|" + m.Role`. -/
def memberKey (m : Member) : String := m.userID ++ "|" ++ m.role

/-- The shared shape of all four equivalence functions after unmarshaling:
equal lengths, and every element of `ys` has its key in the set of `xs`'s
keys. -/
def setEquivBy (key : α → String) (xs ys : List α) : Bool :=
  xs.length == ys.length && ys.all (fun y => xs.any (fun x => key x == key y))

/-- The common shape of the four equivalence functions on serialized
strings: unmarshal both sides (`parse` stands for `json.Unmarshal`, `none`
for an unmarshal error, which makes the function return `false`), then
compare as keyed sets. -/
def equivalentBy (key : α → String) (parse : String → Option (List α))
    (a b : String) : Bool :=
  match parse a, parse b with
  | some xs, some ys => setEquivBy key xs ys
  | _, _ => false

/-- `relationsEquivalent`. -/
def relationsEquivalent (parse : String → Option (List Rel)) (a b : String) : Bool :=
  equivalentBy relKey parse a b

/-- `linksEquivalent`. -/
def linksEquivalent (parse : String → Option (List Link)) (a b : String) : Bool :=
  equivalentBy linkKey parse a b

/-- `licensesEquivalent`. -/
def licensesEquivalent (parse : String → Option (List Lic)) (a b : String) : Bool :=
  equivalentBy licKey parse a b

/-- `membersEquivalent`. -/
def membersEquivalent (parse : String → Option (List Member)) (a b : String) : Bool :=
  equivalentBy memberKey parse a b

/-- `interfacesEquivalent`: unmarshal both sides into a generic value and
compare the canonical re-marshaled text; both codec directions are
external, so both are parameters (`json.Marshal` of a
`map[string]interface{}` can itself fail, hence `Option`). -/
def interfacesEquivalent (parseI : String → Option IV) (marshalI : IV → Option String)
    (a b : String) : Bool :=
  match parseI a, parseI b with
  | some va, some vb =>
      match marshalI va, marshalI vb with
      | some ca, some cb => ca == cb
      | _, _ => false
  | _, _ => false

/-! ## Member diff (`computeMemberDiff`, platform_policy_resource.go) -/

/-- A terraform framework string attribute: null, unknown, or a value. -/
inductive TFString where
  | null
  | unknown
  | value (s : String)
deriving DecidableEq, Repr

/-- `types.String.ValueString()`: the value, or `""` for null/unknown. -/
def TFString.valueString : TFString → String
  | .value s => s
  | _ => ""

/-- `types.String.IsNull()`. -/
def TFString.isNull : TFString → Bool
  | .null => true
  | _ => false

/-- Go map insert (`m[k] = v`): replace the binding if the key is present,
otherwise add it. -/
def mapInsert (m : List (String × String)) (k v : String) : List (String × String) :=
  if m.any (fun p => p.1 == k) then
    m.map (fun p => if p.1 == k then (k, v) else p)
  else
    m ++ [(k, v)]

/-- Go map lookup (`v, ok := m[k]`). -/
def mapGet (m : List (String × String)) (k : String) : Option String :=
  (m.find? (fun p => p.1 == k)).map (·.2)

/-- Building `stateMap` / `planMap`: iterate the member list in order,
inserting `UserID ↦ Role` (later duplicates overwrite earlier ones). -/
def buildMap (ms : List Member) : List (String × String) :=
  ms.foldl (fun acc m => mapInsert acc m.userID m.role) []

/-- The member list `computeMemberDiff` obtains from one attribute:
null/unknown attributes are skipped, and a `json.Unmarshal` error is
discarded, leaving the nil (empty) list. -/
def memberList (parse : String → Option (List Member)) : TFString → List Member
  | .value s => (parse s).getD []
  | _ => []

/-- The core of `computeMemberDiff` once both lists are unmarshaled:
additions are the plan members missing from the state map or present with
a different role; removals are the state members whose id is absent from
the plan map. -/
def memberDiffCore (stateMembers planMembers : List Member) :
    List Member × List String :=
  let stateMap := buildMap stateMembers
  let planMap := buildMap planMembers
  let addMembers := planMembers.filter (fun m =>
    match mapGet stateMap m.userID with
    | none => true
    | some existingRole => existingRole != m.role)
  let removeMembers :=
    (stateMembers.filter (fun m => (mapGet planMap m.userID).isNone)).map (·.userID)
  (addMembers, removeMembers)

/-- `computeMemberDiff` on the raw attributes. -/
def computeMemberDiff (parse : String → Option (List Member))
    (stateMembersAttr planMembersAttr : TFString) : List Member × List String :=
  memberDiffCore (memberList parse stateMembersAttr) (memberList parse planMembersAttr)

/-! ## Cursor pagination (`ListEntities`, internal/client) -/

/-- One parsed `entitiesListResponse`: the page's entity items and the
`page.nextCursor` pointer (`none` = JSON null / absent). Items are opaque
for this development. -/
structure EntitiesPage (α : Type) where
  entities : List α
  nextCursor : Option String
deriving DecidableEq, Repr

/-- URL construction of the list loop: the base query, plus `&cursor=`
when a cursor is set. -/
def listURL (cursor : String) : String :=
  if cursor ≠ "" then "/api/v1/entities?limit=100&cursor=" ++ cursor
  else "/api/v1/entities?limit=100"

/-- The `for` loop body of `ListEntities`, with fuel bounding the number of
iterations; `none` means the loop did not finish within the fuel (the Go
loop is unbounded). `fetch` is `c.Get`, `parsePage` is `json.Unmarshal`
into `entitiesListResponse`. -/
def listEntitiesLoop (fetch : String → Except String String)
    (parsePage : String → Except String (EntitiesPage α)) :
    Nat → String → List α → Option (Except String (List α))
  | 0, _, _ => none
  | fuel + 1, cursor, acc =>
      match fetch (listURL cursor) with
      | .error e => some (.error ("list entities: " ++ e))
      | .ok body =>
          match parsePage body with
          | .error e => some (.error ("unmarshal entities list response: " ++ e))
          | .ok page =>
              let acc := acc ++ page.entities
              match page.nextCursor with
              | none => some (.ok acc)
              | some c =>
                  if c = "" then some (.ok acc)
                  else listEntitiesLoop fetch parsePage fuel c acc

/-- `ListEntities`: run the loop from the empty cursor with an empty
accumulator. -/
def ListEntities (fetch : String → Except String String)
    (parsePage : String → Except String (EntitiesPage α)) (fuel : Nat) :
    Option (Except String (List α)) :=
  listEntitiesLoop fetch parsePage fuel "" []

/-- The page successfully obtained for a cursor: fetch then parse, `none`
if either fails. -/
def pageOf (fetch : String → Except String String)
    (parsePage : String → Except String (EntitiesPage α)) (cursor : String) :
    Option (EntitiesPage α) :=
  match fetch (listURL cursor) with
  | .error _ => none
  | .ok body =>
      match parsePage body with
      | .error _ => none
      | .ok page => some page

/-- A finite cursor chain starting at `cursor`: the sequence of pages the
server serves until one carries no next-cursor (or an empty one). -/
inductive CursorChain (pageAt : String → Option (EntitiesPage α)) :
    String → List (EntitiesPage α) → Prop
  | last {cursor p} : pageAt cursor = some p →
      (p.nextCursor = none ∨ p.nextCursor = some "") →
      CursorChain pageAt cursor [p]
  | step {cursor p c' ps} : pageAt cursor = some p →
      p.nextCursor = some c' → c' ≠ "" →
      CursorChain pageAt c' ps →
      CursorChain pageAt cursor (p :: ps)

/-! ## Resource adapter flows -/

/-- Outcome of a resource `Read`: an error diagnostic was added, the
resource was removed from state, or the state was updated. -/
inductive ReadOutcome (σ : Type) where
  | errored (summary detail : String)
  | removed
  | updated (st : σ)

/-- Outcome of a resource `Delete`. -/
inductive DeleteOutcome where
  | errored (summary detail : String)
  | ok
deriving DecidableEq, Repr

/-- A terraform set/list-of-strings attribute (`types.Set` / `types.List`). -/
inductive TFStrList where
  | null
  | unknown
  | value (xs : List String)
deriving DecidableEq, Repr

/-- A terraform `types.Int64` attribute. -/
inductive TFInt where
  | null
  | unknown
  | value (n : Int)
deriving DecidableEq, Repr

/-- `client.RelationInfo`: the server's split relation representation. -/
structure RelInfo where
  type_ : String
  targetType : String
  targetID : String
  via : String
deriving DecidableEq, Repr

/-- `client.OwnerInfo`. -/
structure OwnerInfo where
  type_ : String
  id : String
deriving DecidableEq, Repr

/-- `client.Integrations`: optional changelog path and license list. -/
structure GoIntegrations where
  changelogPath : Option String
  licenses : List Lic
deriving DecidableEq, Repr

/-- `client.Entity` as returned by `GetEntity`. `IV` is the opaque value a
`map[string]interface{}` unmarshals to; `none` models a nil map. -/
structure GoEntity (IV : Type) where
  serviceID : String
  serviceName : String
  serviceType : String
  tier : String
  description : String
  owner : List OwnerInfo
  lifecycle : String
  tags : List String
  links : List Link
  relations : List RelInfo
  integrations : Option GoIntegrations
  interfaces : Option IV
  repositoryPath : String
  createdAt : String
  updatedAt : String

/-- `EntityResourceModel`: the terraform state of an entity. -/
structure EntityState where
  id : TFString
  name : TFString
  type_ : TFString
  description : TFString
  lifecycle : TFString
  tier : TFString
  owner : TFString
  tags : TFStrList
  links : TFString
  relations : TFString
  licenses : TFString
  changelogPath : TFString
  interfaces : TFString
  repositoryPath : TFString
  createdAt : TFString
  updatedAt : TFString

/-- The external JSON codec operations the entity mapping uses.
Marshaling of the fixed link/relation/license records cannot fail in Go
(only strings and ints), so those are total; marshaling an arbitrary
`map[string]interface{}` can fail, hence `Option`. -/
structure EntityCodec (IV : Type) where
  marshalLinks : List Link → String
  marshalRels : List Rel → String
  marshalLics : List Lic → String
  marshalIfaces : IV → Option String
  ifaceNonempty : IV → Bool
  parseRels : String → Option (List Rel)
  parseLinks : String → Option (List Link)
  parseLics : String → Option (List Lic)
  parseIfaces : String → Option IV

/-- The `sort.Slice` comparison of `mapEntityToState`: by type, then by
target. Two `tfRelation` values comparing equal are identical records, so
the (unstable) Go sort and a merge sort agree up to element identity. -/
def relLE (a b : Rel) : Bool :=
  if a.type_ ≠ b.type_ then a.type_ < b.type_ else ¬(b.target < a.target)

/-- Insert into a list sorted by `relLE`. -/
def insertRel (r : Rel) : List Rel → List Rel
  | [] => [r]
  | x :: xs => if relLE r x then r :: x :: xs else x :: insertRel r xs

/-- Sort by `relLE` (insertion sort; since ties under the type+target
comparison only occur between identical `tfRelation` records, its output
list coincides with the one Go's `sort.Slice` produces). -/
def sortRels : List Rel → List Rel
  | [] => []
  | x :: xs => insertRel x (sortRels xs)

/-- Relation transformation of `mapEntityToState`: reconstruct
`target = targetType + ":" + targetID` and sort by type+target. -/
def tfRelationsOf (rels : List RelInfo) : List Rel :=
  sortRels (rels.map (fun r => ⟨r.type_, r.targetType ++ ":" ++ r.targetID⟩))

/-- `mapEntityToState`: copy the fetched entity into the state model,
field by field, exactly as the source does (empty strings / empty lists
leave the previous state value in place). -/
def mapEntityToState (c : EntityCodec IV) (e : GoEntity IV) (st : EntityState) :
    EntityState :=
  let st := { st with
    id := .value e.serviceID
    name := .value e.serviceName
    type_ := .value e.serviceType }
  let st := if e.tier ≠ "" then { st with tier := .value e.tier } else st
  let st := if e.description ≠ "" then { st with description := .value e.description } else st
  let st := if e.lifecycle ≠ "" then { st with lifecycle := .value e.lifecycle } else st
  let st := match e.owner with
    | o :: _ => { st with owner := .value o.id }
    | [] => st
  let st := if e.tags.length > 0 then { st with tags := .value e.tags } else st
  let st := if e.links.length > 0 then
      { st with links := .value (c.marshalLinks e.links) } else st
  let st := if e.relations.length > 0 then
      { st with relations := .value (c.marshalRels (tfRelationsOf e.relations)) }
    else st
  let st := if e.repositoryPath ≠ "" then
      { st with repositoryPath := .value e.repositoryPath } else st
  let st := match e.interfaces with
    | some iv =>
        if c.ifaceNonempty iv then
          match c.marshalIfaces iv with
          | some s => { st with interfaces := .value s }
          | none => st
        else st
    | none => st
  let st := match e.integrations with
    | some integ =>
        let st := match integ.changelogPath with
          | some p => if p ≠ "" then { st with changelogPath := .value p } else st
          | none => st
        if integ.licenses.length > 0 then
          { st with licenses := .value (c.marshalLics integ.licenses) }
        else st
    | none => st
  let st := if e.createdAt ≠ "" then { st with createdAt := .value e.createdAt } else st
  if e.updatedAt ≠ "" then { st with updatedAt := .value e.updatedAt } else st

/-- `EntityResource.Read` on a loaded state: fetch the entity (the
`GetEntity` result is an input), map it over the state, then restore each
previously-stored collection serialization that is semantically equivalent
to the freshly-mapped one. -/
def entityRead (c : EntityCodec IV) (prev : EntityState)
    (fetch : Except String (GoEntity IV)) : ReadOutcome EntityState :=
  match fetch with
  | .error e =>
      .errored "Error Reading Entity"
        ("Could not read entity " ++ prev.id.valueString ++ ": " ++ e)
  | .ok entity =>
      let prevRelations := prev.relations
      let prevLinks := prev.links
      let prevLicenses := prev.licenses
      let prevInterfaces := prev.interfaces
      let st := mapEntityToState c entity prev
      let st := if ¬prevRelations.isNull ∧ ¬st.relations.isNull ∧
          relationsEquivalent c.parseRels prevRelations.valueString st.relations.valueString then
        { st with relations := prevRelations } else st
      let st := if ¬prevLinks.isNull ∧ ¬st.links.isNull ∧
          linksEquivalent c.parseLinks prevLinks.valueString st.links.valueString then
        { st with links := prevLinks } else st
      let st := if ¬prevInterfaces.isNull ∧ ¬st.interfaces.isNull ∧
          interfacesEquivalent c.parseIfaces c.marshalIfaces
            prevInterfaces.valueString st.interfaces.valueString then
        { st with interfaces := prevInterfaces } else st
      let st := if ¬prevLicenses.isNull ∧ ¬st.licenses.isNull ∧
          licensesEquivalent c.parseLics prevLicenses.valueString st.licenses.valueString then
        { st with licenses := prevLicenses } else st
      .updated st

/-- `client.Team` as returned by `GetTeam`; `MV` is the opaque metadata
map value (`none` models a nil map). Unused pass-through fields
(tenant id, source, parent team) are omitted: nothing in the modelled
flows reads them. -/
structure GoTeam (MV : Type) where
  id : String
  name : String
  displayName : String
  slug : String
  description : String
  metadata : Option MV
  isActive : Bool
  memberCount : Int
  members : List Member
  createdAt : String
  updatedAt : String

/-- `TeamResourceModel`. -/
structure TeamState where
  id : TFString
  name : TFString
  displayName : TFString
  slug : TFString
  description : TFString
  metadata : TFString
  members : TFString
  isActive : Bool
  memberCount : Int
  createdAt : TFString
  updatedAt : TFString

/-- Codec operations used by the team mapping. -/
structure TeamCodec (MV : Type) where
  marshalMeta : MV → Option String
  metaNonempty : MV → Bool
  marshalMembers : List Member → String
  parseMembers : String → Option (List Member)

/-- `mapTeamToState`. -/
def mapTeamToState (c : TeamCodec MV) (team : GoTeam MV) (st : TeamState) :
    TeamState :=
  let st := { st with
    id := .value team.id
    name := .value team.name
    slug := .value team.slug
    isActive := team.isActive
    memberCount := team.memberCount }
  let st := if team.displayName ≠ "" then
      { st with displayName := .value team.displayName } else st
  let st := if team.description ≠ "" then
      { st with description := .value team.description } else st
  let st := if team.createdAt ≠ "" then
      { st with createdAt := .value team.createdAt } else st
  let st := if team.updatedAt ≠ "" then
      { st with updatedAt := .value team.updatedAt } else st
  let st := match team.metadata with
    | some mv =>
        if c.metaNonempty mv then
          match c.marshalMeta mv with
          | some s => { st with metadata := .value s }
          | none => st
        else st
    | none => st
  if team.members.length > 0 then
    { st with members := .value (c.marshalMembers team.members) }
  else st

/-- `TeamResource.Read` on a loaded state: fetch, map, and restore the
previous members serialization when order-insensitively equivalent. -/
def teamRead (c : TeamCodec MV) (prev : TeamState)
    (fetch : Except String (GoTeam MV)) : ReadOutcome TeamState :=
  match fetch with
  | .error e =>
      .errored "Error Reading Team"
        ("Could not read team " ++ prev.id.valueString ++ ": " ++ e)
  | .ok team =>
      let prevMembers := prev.members
      let st := mapTeamToState c team prev
      let st := if ¬prevMembers.isNull ∧ ¬st.members.isNull ∧
          membersEquivalent c.parseMembers prevMembers.valueString st.members.valueString then
        { st with members := prevMembers } else st
      .updated st

/-- `client.APIKey` fields the Read flow consumes. -/
structure GoAPIKey where
  id : String
  name : String
  description : String
  keyPfx : String
  scopes : List String
  lastUsedAt : String
  expiresAt : String
  revokedAt : String
  createdAt : String
  updatedAt : String
deriving DecidableEq, Repr

/-- `APIKeyResourceModel`. -/
structure APIKeyState where
  id : TFString
  name : TFString
  description : TFString
  scopes : TFStrList
  expiresInDays : TFInt
  keyPfx : TFString
  rawKey : TFString
  expiresAt : TFString
  createdAt : TFString
deriving DecidableEq, Repr

/-- `APIKeyResource.Read` on a loaded state: the `GetAPIKey` result is an
input. A revoked key removes the resource; otherwise the state is
refreshed, with `raw_key` deliberately left untouched. -/
def apiKeyRead (prev : APIKeyState) (fetch : Except String GoAPIKey) :
    ReadOutcome APIKeyState :=
  match fetch with
  | .error e =>
      .errored "Error Reading API Key"
        ("Could not read API key " ++ prev.id.valueString ++ ": " ++ e)
  | .ok k =>
      if k.revokedAt ≠ "" then .removed
      else
        let st := { prev with
          name := .value k.name
          keyPfx := .value k.keyPfx }
        let st := if k.expiresAt ≠ "" then { st with expiresAt := .value k.expiresAt } else st
        let st := if k.createdAt ≠ "" then { st with createdAt := .value k.createdAt } else st
        .updated st

/-- `client.K8sAgent`. -/
structure GoK8sAgent where
  id : Int
  clusterID : String
  name : String
  description : String
  tokenPfx : String
  status : String
  onlineStatus : String
  createdAt : String
  expiresAt : String
  lastHeartbeat : String
deriving DecidableEq, Repr

/-- `K8sAgentResourceModel`. -/
structure K8sAgentState where
  id : TFString
  clusterID : TFString
  name : TFString
  description : TFString
  expiresIn : TFInt
  token : TFString
  tokenPfx : TFString
  status : TFString
  expiresAt : TFString
  createdAt : TFString
deriving DecidableEq, Repr

/-- `K8sAgentResource.Read` on a loaded state: any `GetK8sAgent` error
removes the resource from state (no diagnostic); a revoked agent is also
removed; otherwise the state is refreshed with `token` left untouched. -/
def k8sAgentRead (prev : K8sAgentState) (fetch : Except String GoK8sAgent) :
    ReadOutcome K8sAgentState :=
  match fetch with
  | .error _ => .removed
  | .ok agent =>
      if agent.status = "revoked" then .removed
      else
        let st := { prev with
          id := .value agent.clusterID
          name := .value agent.name
          status := .value agent.status }
        let st := if agent.tokenPfx ≠ "" then
            { st with tokenPfx := .value agent.tokenPfx } else st
        let st := if agent.expiresAt ≠ "" then
            { st with expiresAt := .value agent.expiresAt } else st
        let st := if agent.createdAt ≠ "" then
            { st with createdAt := .value agent.createdAt } else st
        .updated st

/-- `K8sAgentResource.Delete` on a loaded state: both the revoke and the
delete calls are always issued, in that order; the revoke result is
intentionally ignored, and only a delete failure produces a diagnostic. -/
def k8sAgentDelete (prev : K8sAgentState) (revokeRes : Except String Unit)
    (deleteRes : Except String Unit) : DeleteOutcome :=
  match revokeRes with
  | _ =>
    match deleteRes with
    | .error e =>
        .errored "Error Deleting K8s Agent"
          ("Could not delete K8s agent " ++ prev.clusterID.valueString ++ ": " ++ e)
    | .ok _ => .ok

/-! ## Transport lemmas -/

/-- One loop iteration on a transient outcome continues with the recorded
error and one more attempt made. -/
theorem doRequestLoop_step_transient (env : HttpEnv) {attempt : Nat}
    (remaining : Nat) (lastErr : Option ReqError) (made : Nat)
    (hc : ¬(0 < attempt ∧ env.canceledBefore attempt = true))
    (ht : transientOutcome (env.attempt attempt) = true) :
    doRequestLoop env (remaining + 1) attempt lastErr made =
      doRequestLoop env remaining (attempt + 1)
        (some (transientErrOf (env.attempt attempt))) (made + 1) := by
  conv_lhs => unfold doRequestLoop
  rw [if_neg hc]
  cases h : env.attempt attempt with
  | netErr msg =>
      rw [h] at ht
      simp only [transientOutcome] at ht
      simp [ht, transientErrOf]
  | bodyErr status msg =>
      rw [h] at ht
      simp only [transientOutcome] at ht
      simp [ht, transientErrOf]
  | resp status body =>
      rw [h] at ht
      simp only [transientOutcome, decide_eq_true_eq] at ht
      simp [ht, transientErrOf]

/-- One loop iteration on a response with status < 400 returns the body
and status with no error. -/
theorem doRequestLoop_step_success (env : HttpEnv) {attempt s : Nat} {b : String}
    (remaining : Nat) (lastErr : Option ReqError) (made : Nat)
    (hc : ¬(0 < attempt ∧ env.canceledBefore attempt = true))
    (h : env.attempt attempt = .resp s b) (hs : s < 400) :
    doRequestLoop env (remaining + 1) attempt lastErr made =
      ⟨some b, s, none, made + 1⟩ := by
  conv_lhs => unfold doRequestLoop
  rw [if_neg hc, h]
  have h5 : ¬(s ≥ 500) := by omega
  have h4 : ¬(s ≥ 400) := by omega
  simp [h5, h4]

/-- One loop iteration on a 4xx response terminates with the typed API
error built by `mkApiError`. -/
theorem doRequestLoop_step_4xx (env : HttpEnv) {attempt s : Nat} {b : String}
    (remaining : Nat) (lastErr : Option ReqError) (made : Nat)
    (hc : ¬(0 < attempt ∧ env.canceledBefore attempt = true))
    (h : env.attempt attempt = .resp s b) (h4 : 400 ≤ s) (h5 : s < 500) :
    doRequestLoop env (remaining + 1) attempt lastErr made =
      ⟨none, s, some (mkApiError env s b), made + 1⟩ := by
  conv_lhs => unfold doRequestLoop
  rw [if_neg hc, h]
  have h5' : ¬(s ≥ 500) := by omega
  simp [h5', h4]

/-- The attempt counter never decreases. -/
theorem doRequestLoop_attemptsMade_le (env : HttpEnv) :
    ∀ remaining attempt lastErr made,
      made ≤ (doRequestLoop env remaining attempt lastErr made).attemptsMade := by
  intro remaining
  induction remaining with
  | zero => intro attempt lastErr made; exact Nat.le_refl _
  | succ n ih =>
      intro attempt lastErr made
      unfold doRequestLoop
      split
      · exact Nat.le_refl _
      · cases env.attempt attempt with
        | netErr msg =>
            by_cases hr : isRetryable msg = true
            · simp only [hr, if_true]
              exact Nat.le_trans (Nat.le_succ _) (ih _ _ _)
            · simp only [eq_false_of_ne_true hr, if_false]
              exact Nat.le_succ _
        | bodyErr status msg =>
            by_cases hr : isRetryable msg = true
            · simp only [hr, if_true]
              exact Nat.le_trans (Nat.le_succ _) (ih _ _ _)
            · simp only [eq_false_of_ne_true hr, if_false]
              exact Nat.le_succ _
        | resp status body =>
            by_cases h5 : status ≥ 500
            · simp only [if_pos h5]
              exact Nat.le_trans (Nat.le_succ _) (ih _ _ _)
            · simp only [if_neg h5]
              by_cases h4 : status ≥ 400
              · simp only [if_pos h4]
                exact Nat.le_succ _
              · simp only [if_neg h4]
                exact Nat.le_succ _

/-- Whenever the loop runs an uncancelled iteration, at least one more
attempt is performed. -/
theorem doRequestLoop_step_ge (env : HttpEnv) {attempt : Nat}
    (remaining : Nat) (lastErr : Option ReqError) (made : Nat)
    (hc : ¬(0 < attempt ∧ env.canceledBefore attempt = true)) :
    made + 1 ≤ (doRequestLoop env (remaining + 1) attempt lastErr made).attemptsMade := by
  unfold doRequestLoop
  rw [if_neg hc]
  cases env.attempt attempt with
  | netErr msg =>
      by_cases hr : isRetryable msg = true
      · simp only [hr, if_true]
        exact doRequestLoop_attemptsMade_le env _ _ _ _
      · simp only [eq_false_of_ne_true hr, if_false]
        exact Nat.le_refl _
  | bodyErr status msg =>
      by_cases hr : isRetryable msg = true
      · simp only [hr, if_true]
        exact doRequestLoop_attemptsMade_le env _ _ _ _
      · simp only [eq_false_of_ne_true hr, if_false]
        exact Nat.le_refl _
  | resp status body =>
      by_cases h5 : status ≥ 500
      · simp only [if_pos h5]
        exact doRequestLoop_attemptsMade_le env _ _ _ _
      · simp only [if_neg h5]
        by_cases h4 : status ≥ 400
        · simp only [if_pos h4]
          exact Nat.le_refl _
        · simp only [if_neg h4]
          exact Nat.le_refl _


/-! ## Claim C1 -/

/-- C1: Retry bound of `doRequest`. If the first `k ≤ 2` attempts each
fail transiently (retryable transport error or status ≥ 500) and attempt
`k+1` returns a 2xx response, the operation returns that success having
performed exactly `k+1` attempts. If all attempts fail transiently, it
stops after exactly 3 attempts and returns an error that wraps the last
underlying failure and states the attempt count. -/
theorem c1_retry_bound (env : HttpEnv)
    (hcancel : ∀ i, env.canceledBefore i = false) :
    (∀ k, k ≤ 2 →
      (∀ i, i < k → transientOutcome (env.attempt i) = true) →
      ∀ s b, env.attempt k = .resp s b → 200 ≤ s → s ≤ 299 →
        doRequest env = ⟨some b, s, none, k + 1⟩) ∧
    ((∀ i, i < 3 → transientOutcome (env.attempt i) = true) →
      doRequest env =
        ⟨none, 0, some (.afterAttempts 3 (some (transientErrOf (env.attempt 2)))), 3⟩) := by
  constructor
  · intro k hk htrans s b hresp h200 h299
    have hs400 : s < 400 := by omega
    interval_cases k
    · calc doRequest env
          = doRequestLoop env (2 + 1) 0 none 0 := rfl
        _ = ⟨some b, s, none, 0 + 1⟩ :=
          doRequestLoop_step_success env 2 none 0 (by simp) hresp hs400
    · calc doRequest env
          = doRequestLoop env (2 + 1) 0 none 0 := rfl
        _ = doRequestLoop env 2 1 (some (transientErrOf (env.attempt 0))) 1 :=
          doRequestLoop_step_transient env 2 none 0 (by simp) (htrans 0 (by omega))
        _ = ⟨some b, s, none, 1 + 1⟩ :=
          doRequestLoop_step_success env 1 _ 1 (by simp [hcancel]) hresp hs400
    · calc doRequest env
          = doRequestLoop env (2 + 1) 0 none 0 := rfl
        _ = doRequestLoop env 2 1 (some (transientErrOf (env.attempt 0))) 1 :=
          doRequestLoop_step_transient env 2 none 0 (by simp) (htrans 0 (by omega))
        _ = doRequestLoop env 1 2 (some (transientErrOf (env.attempt 1))) 2 :=
          doRequestLoop_step_transient env 1 _ 1 (by simp [hcancel]) (htrans 1 (by omega))
        _ = ⟨some b, s, none, 2 + 1⟩ :=
          doRequestLoop_step_success env 0 _ 2 (by simp [hcancel]) hresp hs400
  · intro htrans
    calc doRequest env
        = doRequestLoop env (2 + 1) 0 none 0 := rfl
      _ = doRequestLoop env 2 1 (some (transientErrOf (env.attempt 0))) 1 :=
        doRequestLoop_step_transient env 2 none 0 (by simp) (htrans 0 (by omega))
      _ = doRequestLoop env 1 2 (some (transientErrOf (env.attempt 1))) 2 :=
        doRequestLoop_step_transient env 1 _ 1 (by simp [hcancel]) (htrans 1 (by omega))
      _ = doRequestLoop env 0 3 (some (transientErrOf (env.attempt 2))) 3 :=
        doRequestLoop_step_transient env 0 _ 2 (by simp [hcancel]) (htrans 2 (by omega))
      _ = ⟨none, 0, some (.afterAttempts 3 (some (transientErrOf (env.attempt 2)))), 3⟩ := rfl

/-- A concrete environment whose first attempt fails with a retryable
connection error and whose second attempt succeeds. -/
def envC1a : HttpEnv where
  attempt i := if i = 0 then .netErr "dial tcp: connection refused" else .resp 200 "ok"
  canceledBefore _ := false
  parseErrBody _ := ⟨false, "", ""⟩
  statusText _ := ""

/-- A concrete environment whose every attempt returns HTTP 503. -/
def envC1b : HttpEnv where
  attempt _ := .resp 503 "overloaded"
  canceledBefore _ := false
  parseErrBody _ := ⟨false, "", ""⟩
  statusText _ := ""

/-- Witness for C1 at concrete inputs: one transient failure then a 200
gives the success after 2 attempts; three 503s exhaust the retry budget. -/
theorem c1_retry_bound_witness :
    doRequest envC1a = ⟨some "ok", 200, none, 2⟩ ∧
    doRequest envC1b =
      ⟨none, 0, some (.afterAttempts 3 (some (transientErrOf (envC1b.attempt 2)))), 3⟩ := by
  constructor
  · exact (c1_retry_bound envC1a (fun _ => rfl)).1 1 (by omega)
      (fun i hi => by
        have h0 : i = 0 := by omega
        subst h0
        rfl)
      200 "ok" rfl (by omega) (by omega)
  · exact (c1_retry_bound envC1b (fun _ => rfl)).2
      (fun i _ => rfl)

/-! ## Claim C2 -/

/-- C2: Status-code routing. A first-attempt status in [500,599] triggers
a retry (a second attempt is performed); a status in [400,499] terminates
immediately with the typed API error after exactly one attempt; a status
in [200,299] returns the raw body and status with no error after exactly
one attempt. -/
theorem c2_status_routing (env : HttpEnv) :
    (∀ s b, 500 ≤ s → s ≤ 599 → env.attempt 0 = .resp s b →
      env.canceledBefore 1 = false →
      2 ≤ (doRequest env).attemptsMade) ∧
    (∀ s b, 400 ≤ s → s ≤ 499 → env.attempt 0 = .resp s b →
      doRequest env = ⟨none, s, some (mkApiError env s b), 1⟩) ∧
    (∀ s b, 200 ≤ s → s ≤ 299 → env.attempt 0 = .resp s b →
      doRequest env = ⟨some b, s, none, 1⟩) := by
  refine ⟨?_, ?_, ?_⟩
  · intro s b h5 _ hresp hc1
    have hstep : doRequest env =
        doRequestLoop env 2 1 (some (transientErrOf (env.attempt 0))) 1 := by
      calc doRequest env
          = doRequestLoop env (2 + 1) 0 none 0 := rfl
        _ = doRequestLoop env 2 1 (some (transientErrOf (env.attempt 0))) 1 :=
          doRequestLoop_step_transient env 2 none 0 (by simp)
            (by rw [hresp]; simp only [transientOutcome]; exact decide_eq_true h5)
    rw [hstep]
    exact doRequestLoop_step_ge env 1 _ 1 (by simp [hc1])
  · intro s b h4 h499 hresp
    calc doRequest env
        = doRequestLoop env (2 + 1) 0 none 0 := rfl
      _ = ⟨none, s, some (mkApiError env s b), 0 + 1⟩ :=
        doRequestLoop_step_4xx env 2 none 0 (by simp) hresp h4 (by omega)
  · intro s b h2 h299 hresp
    calc doRequest env
        = doRequestLoop env (2 + 1) 0 none 0 := rfl
      _ = ⟨some b, s, none, 0 + 1⟩ :=
        doRequestLoop_step_success env 2 none 0 (by simp) hresp (by omega)

/-- A concrete environment returning 503 then 404 then 204. -/
def envC2 : HttpEnv where
  attempt i := if i = 0 then .resp 503 "unavailable" else .resp 200 "fine"
  canceledBefore _ := false
  parseErrBody _ := ⟨false, "", ""⟩
  statusText _ := ""

/-- A concrete environment returning 404 on the first attempt. -/
def envC2b : HttpEnv where
  attempt _ := .resp 404 "missing"
  canceledBefore _ := false
  parseErrBody _ := ⟨false, "", ""⟩
  statusText _ := ""

/-- A concrete environment returning 204 on the first attempt. -/
def envC2c : HttpEnv where
  attempt _ := .resp 204 ""
  canceledBefore _ := false
  parseErrBody _ := ⟨false, "", ""⟩
  statusText _ := ""

/-- Witness for C2 at concrete inputs: a 503 first attempt is retried, a
404 terminates at once with the typed error, a 204 succeeds at once. -/
theorem c2_status_routing_witness :
    2 ≤ (doRequest envC2).attemptsMade ∧
    doRequest envC2b = ⟨none, 404, some (mkApiError envC2b 404 "missing"), 1⟩ ∧
    doRequest envC2c = ⟨some "", 204, none, 1⟩ := by
  refine ⟨?_, ?_, ?_⟩
  · exact (c2_status_routing envC2).1 503 "unavailable" (by omega) (by omega) rfl rfl
  · exact (c2_status_routing envC2b).2.1 404 "missing" (by omega) (by omega) rfl
  · exact (c2_status_routing envC2c).2.2 204 "" (by omega) (by omega) rfl


/-! ## Claim C3 -/

/-- C3 (amended): Typed-error construction. (a) For a 4xx response the
typed error is `mkApiError`: attempt to unmarshal the body as
`{code, message}`; (b) explicitly, a successful parse with a non-empty
field is used as-is, a parse leaving both fields empty falls back to the
raw body text, and to the standard reason phrase when the body is empty;
the status code is always carried. (c) For a 5xx response no unmarshal is
attempted: the recorded error carries the status, an empty code, and the
raw body text as the message. -/
theorem c3_typed_error_construction :
    (∀ (env : HttpEnv) (s : Nat) (b : String), 400 ≤ s → s ≤ 499 →
      env.attempt 0 = .resp s b →
      (doRequest env).error = some (mkApiError env s b) ∧
      (doRequest env).status = s) ∧
    (∀ (env : HttpEnv) (s : Nat) (b : String),
      (∀ c m, env.parseErrBody b = ⟨true, c, m⟩ → ¬(m = "" ∧ c = "") →
        mkApiError env s b = .apiError s c m) ∧
      (env.parseErrBody b = ⟨true, "", ""⟩ → b ≠ "" →
        mkApiError env s b = .apiError s "" b) ∧
      (env.parseErrBody b = ⟨true, "", ""⟩ → b = "" →
        mkApiError env s b = .apiError s "" (env.statusText s)) ∧
      (∀ c m, env.parseErrBody b = ⟨false, c, m⟩ → ¬(b = "" ∧ c = "") →
        mkApiError env s b = .apiError s c b) ∧
      (∀ m, env.parseErrBody b = ⟨false, "", m⟩ → b = "" →
        mkApiError env s b = .apiError s "" (env.statusText s)) ∧
      (∃ c m, mkApiError env s b = .apiError s c m)) ∧
    (∀ (env : HttpEnv) (s : Nat) (b : String), 500 ≤ s → s ≤ 599 →
      (∀ i, i < 3 → env.attempt i = .resp s b) →
      (∀ i, env.canceledBefore i = false) →
      (doRequest env).error =
        some (.afterAttempts 3 (some (.apiError s "" b)))) := by
  refine ⟨?_, ?_, ?_⟩
  · intro env s b h4 h499 hresp
    have h := doRequestLoop_step_4xx env 2 none 0 (by simp)
      hresp h4 (by omega)
    have hd : doRequest env = ⟨none, s, some (mkApiError env s b), 0 + 1⟩ := h
    rw [hd]
    exact ⟨rfl, rfl⟩
  · intro env s b
    refine ⟨?_, ?_, ?_, ?_, ?_, ?_⟩
    · intro c m hp hne
      simp [mkApiError, hp, if_neg hne]
    · intro hp hb
      simp [mkApiError, hp, hb]
    · intro hp hb
      subst hb
      simp [mkApiError, hp]
    · intro c m hp hne
      simp only [mkApiError, hp]
      rw [if_neg (by simpa using hne)]
      simp
    · intro m hp hb
      subst hb
      simp [mkApiError, hp]
    · cases hpe : env.parseErrBody b with
      | mk ok c m =>
          by_cases hcm : (if ok = true then m else b) = "" ∧ c = ""
          · refine ⟨c, if b ≠ "" then b else env.statusText s, ?_⟩
            simp only [mkApiError, hpe]
            rw [if_pos hcm]
          · refine ⟨c, if ok = true then m else b, ?_⟩
            simp only [mkApiError, hpe]
            rw [if_neg hcm]
  · intro env s b h5 h599 hresp hcancel
    have ht : ∀ i, i < 3 → transientOutcome (env.attempt i) = true := by
      intro i hi
      rw [hresp i hi]
      simp only [transientOutcome, decide_eq_true_eq]
      omega
    have hfin :
        doRequest env =
          ⟨none, 0, some (.afterAttempts 3 (some (transientErrOf (env.attempt 2)))), 3⟩ :=
      calc doRequest env
          = doRequestLoop env (2 + 1) 0 none 0 := rfl
        _ = doRequestLoop env 2 1 (some (transientErrOf (env.attempt 0))) 1 :=
          doRequestLoop_step_transient env 2 none 0 (by simp) (ht 0 (by omega))
        _ = doRequestLoop env 1 2 (some (transientErrOf (env.attempt 1))) 2 :=
          doRequestLoop_step_transient env 1 _ 1 (by simp [hcancel]) (ht 1 (by omega))
        _ = doRequestLoop env 0 3 (some (transientErrOf (env.attempt 2))) 3 :=
          doRequestLoop_step_transient env 0 _ 2 (by simp [hcancel]) (ht 2 (by omega))
        _ = _ := rfl
    rw [hfin, hresp 2 (by omega)]
    rfl

/-- The well-formed JSON error body `{"code":"E","message":"boom"}`. -/
def bodyC3 : String := "\x7b\"code\":\"E\",\"message\":\"boom\"\x7d"

/-- An environment answering every attempt with a 500 whose body is
`bodyC3`, which unmarshals successfully to code `E`, message `boom`. -/
def envC3 : HttpEnv where
  attempt _ := .resp 500 bodyC3
  canceledBefore _ := false
  parseErrBody s := if s = bodyC3 then ⟨true, "E", "boom"⟩ else ⟨false, "", ""⟩
  statusText n := if n = 500 then "Internal Server Error" else ""

/-- Counterexample to C3 as stated: on a 500 response whose body
unmarshals to `{code: "E", message: "boom"}`, the recorded error keeps an
empty code and the raw body text — the unmarshal-based construction
(`mkApiError`, which yields code `E` and message `boom`) is not applied to
5xx responses. -/
theorem c3_counterexample :
    (doRequest envC3).error =
      some (.afterAttempts 3 (some (.apiError 500 "" bodyC3))) ∧
    mkApiError envC3 500 bodyC3 = .apiError 500 "E" "boom" ∧
    ReqError.apiError 500 "" bodyC3 ≠ .apiError 500 "E" "boom" := by
  refine ⟨rfl, rfl, ?_⟩
  intro h
  injection h with h1 h2 h3
  exact absurd h2 (by decide)

/-- An environment answering with a 422 whose body fails to unmarshal. -/
def envC3w : HttpEnv where
  attempt _ := .resp 422 "validation failed"
  canceledBefore _ := false
  parseErrBody _ := ⟨false, "", ""⟩
  statusText _ := ""

/-- Witness for the amended C3 at concrete inputs. -/
theorem c3_typed_error_construction_witness :
    (doRequest envC3w).error = some (mkApiError envC3w 422 "validation failed") ∧
    mkApiError envC3w 422 "validation failed" =
      .apiError 422 "" "validation failed" ∧
    (doRequest envC3).error =
      some (.afterAttempts 3 (some (.apiError 500 "" bodyC3))) := by
  refine ⟨?_, ?_, ?_⟩
  · exact (c3_typed_error_construction.1 envC3w 422 "validation failed"
      (by omega) (by omega) rfl).1
  · exact (c3_typed_error_construction.2.1 envC3w 422 "validation failed").2.2.2.1
      "" "" rfl (by simp)
  · exact c3_typed_error_construction.2.2 envC3 500 bodyC3 (by omega) (by omega)
      (fun i _ => rfl) (fun _ => rfl)


/-! ## Claim C4: generic lemmas about the keyed-set comparison -/

/-- `setEquivBy` is reflexive. -/
theorem setEquivBy_refl (key : α → String) (xs : List α) :
    setEquivBy key xs xs = true := by
  simp only [setEquivBy, beq_self_eq_true, Bool.true_and, List.all_eq_true,
    List.any_eq_true]
  intro y hy
  exact ⟨y, hy, by simp⟩

/-- `List.all` is invariant under permutation of the list. -/
theorem perm_all_eq (p : α → Bool) {l₁ l₂ : List α} (h : l₁.Perm l₂) :
    l₁.all p = l₂.all p := by
  induction h with
  | nil => rfl
  | cons x _ ih => simp [List.all_cons, ih]
  | swap x y l => simp only [List.all_cons, ← Bool.and_assoc, Bool.and_comm (p y) (p x)]
  | trans _ _ ih1 ih2 => rw [ih1, ih2]

/-- Permuting the second list does not change `setEquivBy`. -/
theorem setEquivBy_perm_right (key : α → String) (xs : List α)
    {ys ys' : List α} (h : ys'.Perm ys) :
    setEquivBy key xs ys' = setEquivBy key xs ys := by
  simp only [setEquivBy, h.length_eq, perm_all_eq _ h]

/-- Unfolding `setEquivBy` to a Prop. -/
theorem setEquivBy_eq_true_iff (key : α → String) (xs ys : List α) :
    setEquivBy key xs ys = true ↔
      xs.length = ys.length ∧ ∀ y ∈ ys, key y ∈ xs.map key := by
  simp only [setEquivBy, Bool.and_eq_true, beq_iff_eq, List.all_eq_true,
    List.any_eq_true, List.mem_map]

/-- One direction of symmetry, assuming duplicate-free keys on both
sides. -/
theorem setEquivBy_true_symm {key : α → String} {xs ys : List α}
    (hxs : (xs.map key).Nodup) (hys : (ys.map key).Nodup)
    (h : setEquivBy key xs ys = true) : setEquivBy key ys xs = true := by
  rw [setEquivBy_eq_true_iff] at h ⊢
  obtain ⟨hl, hsub⟩ := h
  have hsub' : ys.map key ⊆ xs.map key := by
    intro a ha
    obtain ⟨y, hy, rfl⟩ := List.mem_map.mp ha
    exact hsub y hy
  have hperm : (ys.map key).Perm (xs.map key) :=
    (hys.subperm hsub').perm_of_length_le (by simp [hl])
  refine ⟨hl.symm, fun x hx => ?_⟩
  exact hperm.mem_iff.mpr (List.mem_map_of_mem key hx)

/-- Symmetry of `setEquivBy` under duplicate-free keys. -/
theorem setEquivBy_symm {key : α → String} {xs ys : List α}
    (hxs : (xs.map key).Nodup) (hys : (ys.map key).Nodup) :
    setEquivBy key xs ys = setEquivBy key ys xs := by
  cases h1 : setEquivBy key xs ys <;> cases h2 : setEquivBy key ys xs <;> try rfl
  · rw [← h1, setEquivBy_true_symm hys hxs h2]
  · rw [← h2, setEquivBy_true_symm hxs hys h1]

/-- Reflexivity of `equivalentBy` on any string that unmarshals. -/
theorem equivalentBy_refl (key : α → String) (parse : String → Option (List α))
    {a : String} {A : List α} (ha : parse a = some A) :
    equivalentBy key parse a a = true := by
  simp only [equivalentBy, ha]
  exact setEquivBy_refl key A

/-- Symmetry of `equivalentBy` when both sides unmarshal to
duplicate-free collections. -/
theorem equivalentBy_symm (key : α → String) (parse : String → Option (List α))
    {a b : String} {A B : List α} (ha : parse a = some A) (hb : parse b = some B)
    (hA : (A.map key).Nodup) (hB : (B.map key).Nodup) :
    equivalentBy key parse a b = equivalentBy key parse b a := by
  simp only [equivalentBy, ha, hb]
  exact setEquivBy_symm hA hB

/-- Replacing the second string by one that unmarshals to a permutation
never changes `equivalentBy`, for any first argument. -/
theorem equivalentBy_perm (key : α → String) (parse : String → Option (List α))
    {b b' : String} {B B' : List α} (hb : parse b = some B)
    (hb' : parse b' = some B') (hperm : B'.Perm B) (a : String) :
    equivalentBy key parse a b' = equivalentBy key parse a b := by
  simp only [equivalentBy, hb, hb']
  cases parse a with
  | none => rfl
  | some A => exact setEquivBy_perm_right key A hperm

/-- C4 (amended): each of the four order-insensitive equivalence
functions satisfies `equivalent(a,a) = true` for every string `a` that
unmarshals successfully; `equivalent(a,b) = equivalent(b,a)` whenever both
strings unmarshal to collections with duplicate-free matching keys; and
replacing one side by any serialization of a permutation of its elements
never changes the result. (As literally stated the claim is false:
see the counterexample for duplicates and unparseable strings.) -/
theorem c4_equivalence_properties :
    ((∀ (p : String → Option (List Rel)) a A, p a = some A →
        relationsEquivalent p a a = true) ∧
      (∀ (p : String → Option (List Rel)) a b A B, p a = some A → p b = some B →
        (A.map relKey).Nodup → (B.map relKey).Nodup →
        relationsEquivalent p a b = relationsEquivalent p b a) ∧
      (∀ (p : String → Option (List Rel)) a b b' B B', p b = some B →
        p b' = some B' → B'.Perm B →
        relationsEquivalent p a b' = relationsEquivalent p a b)) ∧
    ((∀ (p : String → Option (List Link)) a A, p a = some A →
        linksEquivalent p a a = true) ∧
      (∀ (p : String → Option (List Link)) a b A B, p a = some A → p b = some B →
        (A.map linkKey).Nodup → (B.map linkKey).Nodup →
        linksEquivalent p a b = linksEquivalent p b a) ∧
      (∀ (p : String → Option (List Link)) a b b' B B', p b = some B →
        p b' = some B' → B'.Perm B →
        linksEquivalent p a b' = linksEquivalent p a b)) ∧
    ((∀ (p : String → Option (List Lic)) a A, p a = some A →
        licensesEquivalent p a a = true) ∧
      (∀ (p : String → Option (List Lic)) a b A B, p a = some A → p b = some B →
        (A.map licKey).Nodup → (B.map licKey).Nodup →
        licensesEquivalent p a b = licensesEquivalent p b a) ∧
      (∀ (p : String → Option (List Lic)) a b b' B B', p b = some B →
        p b' = some B' → B'.Perm B →
        licensesEquivalent p a b' = licensesEquivalent p a b)) ∧
    ((∀ (p : String → Option (List Member)) a A, p a = some A →
        membersEquivalent p a a = true) ∧
      (∀ (p : String → Option (List Member)) a b A B, p a = some A → p b = some B →
        (A.map memberKey).Nodup → (B.map memberKey).Nodup →
        membersEquivalent p a b = membersEquivalent p b a) ∧
      (∀ (p : String → Option (List Member)) a b b' B B', p b = some B →
        p b' = some B' → B'.Perm B →
        membersEquivalent p a b' = membersEquivalent p a b)) := by
  refine ⟨⟨?_, ?_, ?_⟩, ⟨?_, ?_, ?_⟩, ⟨?_, ?_, ?_⟩, ⟨?_, ?_, ?_⟩⟩
  · exact fun p a A ha => equivalentBy_refl relKey p ha
  · exact fun p a b A B ha hb hA hB => equivalentBy_symm relKey p ha hb hA hB
  · exact fun p a b b' B B' hb hb' hp => equivalentBy_perm relKey p hb hb' hp a
  · exact fun p a A ha => equivalentBy_refl linkKey p ha
  · exact fun p a b A B ha hb hA hB => equivalentBy_symm linkKey p ha hb hA hB
  · exact fun p a b b' B B' hb hb' hp => equivalentBy_perm linkKey p hb hb' hp a
  · exact fun p a A ha => equivalentBy_refl licKey p ha
  · exact fun p a b A B ha hb hA hB => equivalentBy_symm licKey p ha hb hA hB
  · exact fun p a b b' B B' hb hb' hp => equivalentBy_perm licKey p hb hb' hp a
  · exact fun p a A ha => equivalentBy_refl memberKey p ha
  · exact fun p a b A B ha hb hA hB => equivalentBy_symm memberKey p ha hb hA hB
  · exact fun p a b b' B B' hb hb' hp => equivalentBy_perm memberKey p hb hb' hp a

/-- Two relations with a duplicate element. -/
def relDupA : List Rel := [⟨"depends_on", "service:a"⟩, ⟨"depends_on", "service:a"⟩]

/-- Two distinct relations. -/
def relDupB : List Rel := [⟨"depends_on", "service:a"⟩, ⟨"depends_on", "service:b"⟩]

/-- Serialization of `relDupA`, as Go would unmarshal it. -/
def strRelA : String :=
  "[\x7b\"type\":\"depends_on\",\"target\":\"service:a\"\x7d,\x7b\"type\":\"depends_on\",\"target\":\"service:a\"\x7d]"

/-- Serialization of `relDupB`. -/
def strRelB : String :=
  "[\x7b\"type\":\"depends_on\",\"target\":\"service:b\"\x7d,\x7b\"type\":\"depends_on\",\"target\":\"service:a\"\x7d]"

/-- Serialization of `relDupB.reverse`. -/
def strRelBrev : String :=
  "[\x7b\"type\":\"depends_on\",\"target\":\"service:a\"\x7d,\x7b\"type\":\"depends_on\",\"target\":\"service:b\"\x7d]"

/-- The JSON unmarshal results on the three concrete strings above (any
other string is treated as failing to unmarshal, like the literal text
`not json` does in Go). -/
def parseRelC4 : String → Option (List Rel) := fun s =>
  if s = strRelA then some relDupA
  else if s = strRelB then some relDupB
  else if s = strRelBrev then some relDupB.reverse
  else none

/-- Counterexample to C4 as stated: with a duplicated element on one
side, `relationsEquivalent` is not symmetric, and on a string that does
not unmarshal it is not reflexive. -/
theorem c4_counterexample :
    relationsEquivalent parseRelC4 strRelA strRelB = false ∧
    relationsEquivalent parseRelC4 strRelB strRelA = true ∧
    relationsEquivalent parseRelC4 "not json" "not json" = false := by
  refine ⟨?_, ?_, ?_⟩ <;> decide

/-- Witness for the amended C4 at concrete inputs: reflexivity on a
parsed string, symmetry on duplicate-free strings, and permutation
invariance between the two serializations of the same set. -/
theorem c4_equivalence_properties_witness :
    relationsEquivalent parseRelC4 strRelA strRelA = true ∧
    relationsEquivalent parseRelC4 strRelB strRelBrev =
      relationsEquivalent parseRelC4 strRelBrev strRelB ∧
    relationsEquivalent parseRelC4 strRelA strRelBrev =
      relationsEquivalent parseRelC4 strRelA strRelB ∧
    linksEquivalent (fun _ => some []) "x" "x" = true ∧
    linksEquivalent (fun _ => some []) "x" "y" =
      linksEquivalent (fun _ => some []) "y" "x" ∧
    linksEquivalent (fun _ => some []) "z" "x" =
      linksEquivalent (fun _ => some []) "z" "y" ∧
    licensesEquivalent (fun _ => some []) "x" "x" = true ∧
    licensesEquivalent (fun _ => some []) "x" "y" =
      licensesEquivalent (fun _ => some []) "y" "x" ∧
    licensesEquivalent (fun _ => some []) "z" "x" =
      licensesEquivalent (fun _ => some []) "z" "y" ∧
    membersEquivalent (fun _ => some []) "x" "x" = true ∧
    membersEquivalent (fun _ => some []) "x" "y" =
      membersEquivalent (fun _ => some []) "y" "x" ∧
    membersEquivalent (fun _ => some []) "z" "x" =
      membersEquivalent (fun _ => some []) "z" "y" := by
  refine ⟨?_, ?_, ?_, ?_, ?_, ?_, ?_, ?_, ?_, ?_, ?_, ?_⟩
  · exact c4_equivalence_properties.1.1 parseRelC4 strRelA relDupA (by decide)
  · exact c4_equivalence_properties.1.2.1 parseRelC4 strRelB strRelBrev
      relDupB relDupB.reverse (by decide) (by decide) (by decide) (by decide)
  · exact c4_equivalence_properties.1.2.2 parseRelC4 strRelA strRelB strRelBrev
      relDupB relDupB.reverse (by decide) (by decide) (relDupB.reverse_perm)
  · exact c4_equivalence_properties.2.1.1 (fun _ => some []) "x" [] rfl
  · exact c4_equivalence_properties.2.1.2.1 (fun _ => some []) "x" "y" [] []
      rfl rfl (by decide) (by decide)
  · exact c4_equivalence_properties.2.1.2.2 (fun _ => some []) "z" "y" "x" [] []
      rfl rfl (List.Perm.refl [])
  · exact c4_equivalence_properties.2.2.1.1 (fun _ => some []) "x" [] rfl
  · exact c4_equivalence_properties.2.2.1.2.1 (fun _ => some []) "x" "y" [] []
      rfl rfl (by decide) (by decide)
  · exact c4_equivalence_properties.2.2.1.2.2 (fun _ => some []) "z" "y" "x" [] []
      rfl rfl (List.Perm.refl [])
  · exact c4_equivalence_properties.2.2.2.1 (fun _ => some []) "x" [] rfl
  · exact c4_equivalence_properties.2.2.2.2.1 (fun _ => some []) "x" "y" [] []
      rfl rfl (by decide) (by decide)
  · exact c4_equivalence_properties.2.2.2.2.2 (fun _ => some []) "z" "y" "x" [] []
      rfl rfl (List.Perm.refl [])


/-! ## Claims C5/C10: lemmas about the Go-map model -/

/-- `mapGet` on nil. -/
theorem mapGet_nil (k : String) : mapGet [] k = none := rfl

/-- `mapGet` on a cons. -/
theorem mapGet_cons (x : String × String) (m : List (String × String)) (k : String) :
    mapGet (x :: m) k = if x.1 = k then some x.2 else mapGet m k := by
  by_cases h : x.1 = k
  · simp [mapGet, List.find?_cons_of_pos, h]
  · simp [mapGet, List.find?_cons_of_neg, h]

/-- Looking up a key other than the replaced one ignores the
replacement. -/
theorem mapGet_mapReplace_ne (m : List (String × String)) (k v k' : String)
    (hne : k ≠ k') :
    mapGet (m.map (fun p => if p.1 == k then (k, v) else p)) k' = mapGet m k' := by
  induction m with
  | nil => rfl
  | cons hd tl ih =>
      simp only [List.map_cons]
      by_cases hhd : hd.1 = k
      · rw [if_pos (beq_iff_eq.mpr hhd), mapGet_cons, mapGet_cons,
          if_neg hne, if_neg (show ¬hd.1 = k' from hhd ▸ hne)]
        exact ih
      · rw [if_neg (show ¬(hd.1 == k) = true from by simpa using hhd),
          mapGet_cons, mapGet_cons]
        by_cases h2 : hd.1 = k'
        · rw [if_pos h2, if_pos h2]
        · rw [if_neg h2, if_neg h2]
          exact ih

/-- Looking up the replaced key after replacement yields the new value,
provided the key was present. -/
theorem mapGet_mapReplace_eq (m : List (String × String)) (k v : String)
    (hany : m.any (fun p => p.1 == k) = true) :
    mapGet (m.map (fun p => if p.1 == k then (k, v) else p)) k = some v := by
  induction m with
  | nil => simp at hany
  | cons hd tl ih =>
      simp only [List.map_cons]
      by_cases hhd : hd.1 = k
      · rw [if_pos (beq_iff_eq.mpr hhd), mapGet_cons, if_pos rfl]
      · have htl : tl.any (fun p => p.1 == k) = true := by
          simp only [List.any_cons, Bool.or_eq_true, beq_iff_eq] at hany
          rcases hany with h | h
          · exact absurd h hhd
          · exact h
        rw [if_neg (show ¬(hd.1 == k) = true from by simpa using hhd),
          mapGet_cons, if_neg hhd]
        exact ih htl

/-- Appending a new binding is only seen when the key was absent
everywhere earlier. -/
theorem mapGet_append_single (m : List (String × String)) (k v k' : String) :
    mapGet (m ++ [(k, v)]) k' =
      match mapGet m k' with
      | some r => some r
      | none => if k = k' then some v else none := by
  induction m with
  | nil =>
      rw [List.nil_append, mapGet_cons]
      by_cases h : k = k' <;> simp [h, mapGet_nil]
  | cons hd tl ih =>
      rw [List.cons_append, mapGet_cons, mapGet_cons]
      by_cases h : hd.1 = k' <;> simp [h, ih]

/-- An absent key looks up to `none`. -/
theorem mapGet_eq_none_of_not_any (m : List (String × String)) (k : String)
    (hany : m.any (fun p => p.1 == k) = false) : mapGet m k = none := by
  unfold mapGet
  cases hf : List.find? (fun p => p.1 == k) m with
  | none => rfl
  | some x =>
      have hx : x ∈ m := List.mem_of_find?_eq_some hf
      have hpx := List.find?_some hf
      simp only [List.any_eq_false] at hany
      exact absurd hpx (hany x hx)

/-- Go map insert followed by lookup. -/
theorem mapGet_mapInsert (m : List (String × String)) (k v k' : String) :
    mapGet (mapInsert m k v) k' = if k = k' then some v else mapGet m k' := by
  unfold mapInsert
  by_cases hany : m.any (fun p => p.1 == k) = true
  · rw [if_pos hany]
    by_cases hk : k = k'
    · subst hk
      rw [if_pos rfl]
      exact mapGet_mapReplace_eq m k v hany
    · rw [if_neg hk]
      exact mapGet_mapReplace_ne m k v k' hk
  · rw [if_neg hany, mapGet_append_single]
    by_cases hk : k = k'
    · subst hk
      rw [mapGet_eq_none_of_not_any m k (eq_false_of_ne_true hany)]
    · cases hm : mapGet m k' <;> simp [hk, hm]

/-- Lookup after building the member map: the role of the last member in
the list carrying the key, since later inserts overwrite earlier ones. -/
theorem mapGet_buildMap_aux (ms : List Member) (acc : List (String × String))
    (k : String) :
    mapGet (ms.foldl (fun acc m => mapInsert acc m.userID m.role) acc) k =
      match ms.reverse.find? (fun m => m.userID == k) with
      | some m => some m.role
      | none => mapGet acc k := by
  induction ms generalizing acc with
  | nil => simp
  | cons hd tl ih =>
      rw [List.foldl_cons, ih, List.reverse_cons, List.find?_append]
      cases hfind : tl.reverse.find? (fun m => m.userID == k) with
      | some m => simp
      | none =>
          simp only [Option.none_or]
          by_cases hh : hd.userID = k
          · rw [List.find?_cons_of_pos _ (by simpa using hh)]
            simp [mapGet_mapInsert, hh]
          · rw [List.find?_cons_of_neg _ (by simpa using hh)]
            simp [mapGet_mapInsert, hh, mapGet_nil]

/-- A key is absent from the built map iff no member carries it. -/
theorem mapGet_buildMap_eq_none (ms : List Member) (k : String) :
    mapGet (buildMap ms) k = none ↔ k ∉ ms.map Member.userID := by
  rw [buildMap, mapGet_buildMap_aux]
  cases hf : ms.reverse.find? (fun m => m.userID == k) with
  | some m =>
      have hmem : m ∈ ms := List.mem_reverse.mp (List.mem_of_find?_eq_some hf)
      have hk : m.userID = k := by simpa using List.find?_some hf
      simp only [reduceCtorEq, false_iff, not_not]
      exact hk ▸ List.mem_map_of_mem Member.userID hmem
  | none =>
      simp only [List.find?_eq_none] at hf
      simp only [mapGet_nil, true_iff]
      intro hk
      obtain ⟨m, hm, hkm⟩ := List.mem_map.mp hk
      exact hf m (List.mem_reverse.mpr hm) (by simpa using hkm)

/-- Under duplicate-free user ids, lookup in the built map finds exactly
the member with that id. -/
theorem mapGet_buildMap_eq_some_iff (ms : List Member) (k r : String)
    (hnd : (ms.map Member.userID).Nodup) :
    mapGet (buildMap ms) k = some r ↔ ∃ m ∈ ms, m.userID = k ∧ m.role = r := by
  constructor
  · intro h
    rw [buildMap, mapGet_buildMap_aux] at h
    cases hf : ms.reverse.find? (fun m => m.userID == k) with
    | some m =>
        rw [hf] at h
        have hmem : m ∈ ms := List.mem_reverse.mp (List.mem_of_find?_eq_some hf)
        have hk : m.userID = k := by simpa using List.find?_some hf
        exact ⟨m, hmem, hk, by simpa using h⟩
    | none =>
        rw [hf] at h
        simp [mapGet_nil] at h
  · rintro ⟨m, hm, hk, hr⟩
    cases hv : mapGet (buildMap ms) k with
    | none =>
        exact absurd (hk ▸ List.mem_map_of_mem Member.userID hm)
          ((mapGet_buildMap_eq_none ms k).mp hv)
    | some r' =>
        rw [buildMap, mapGet_buildMap_aux] at hv
        cases hf : ms.reverse.find? (fun m => m.userID == k) with
        | some m' =>
            rw [hf] at hv
            have hmem' : m' ∈ ms := List.mem_reverse.mp (List.mem_of_find?_eq_some hf)
            have hk' : m'.userID = k := by simpa using List.find?_some hf
            have : m = m' := List.inj_on_of_nodup_map hnd hm hmem' (by rw [hk, hk'])
            subst this
            rw [← hr, show r' = m.role from by simpa using hv.symm]
            -- goal closed by rfl after rewrites
        | none =>
            rw [hf] at hv
            simp [mapGet_nil] at hv


/-- C5: Member diff correctness. For a stored member set `S` (with
duplicate-free user ids) and a desired member list `P`, both given as
serialized attributes that unmarshal successfully, `computeMemberDiff`
returns as additions exactly the members of `P` whose user id is absent
from `S` or present with a different role, and as removals exactly the
user ids of `S` absent from `P`. -/
theorem c5_member_diff (parse : String → Option (List Member))
    (ss ps : String) (S P : List Member)
    (hS : parse ss = some S) (hP : parse ps = some P)
    (hndS : (S.map Member.userID).Nodup) :
    (∀ m, m ∈ (computeMemberDiff parse (.value ss) (.value ps)).1 ↔
      m ∈ P ∧ (m.userID ∉ S.map Member.userID ∨
        ∃ s ∈ S, s.userID = m.userID ∧ s.role ≠ m.role)) ∧
    (∀ id, id ∈ (computeMemberDiff parse (.value ss) (.value ps)).2 ↔
      id ∈ S.map Member.userID ∧ id ∉ P.map Member.userID) := by
  have hdiff : computeMemberDiff parse (.value ss) (.value ps) = memberDiffCore S P := by
    simp [computeMemberDiff, memberList, hS, hP]
  rw [hdiff]
  constructor
  · intro m
    show m ∈ P.filter (fun m =>
        match mapGet (buildMap S) m.userID with
        | none => true
        | some existingRole => existingRole != m.role) ↔ _
    rw [List.mem_filter]
    constructor
    · rintro ⟨hmP, hpred⟩
      refine ⟨hmP, ?_⟩
      cases hget : mapGet (buildMap S) m.userID with
      | none =>
          exact Or.inl ((mapGet_buildMap_eq_none S m.userID).mp hget)
      | some r =>
          rw [hget] at hpred
          simp only [bne_iff_ne, ne_eq] at hpred
          obtain ⟨s, hsS, hsid, hsrole⟩ :=
            (mapGet_buildMap_eq_some_iff S m.userID r hndS).mp hget
          exact Or.inr ⟨s, hsS, hsid, by rw [hsrole]; exact hpred⟩
    · rintro ⟨hmP, habs | ⟨s, hsS, hsid, hsrole⟩⟩
      · refine ⟨hmP, ?_⟩
        rw [(mapGet_buildMap_eq_none S m.userID).mpr habs]
      · refine ⟨hmP, ?_⟩
        cases hget : mapGet (buildMap S) m.userID with
        | none => rfl
        | some r =>
            obtain ⟨s', hs'S, hs'id, hs'role⟩ :=
              (mapGet_buildMap_eq_some_iff S m.userID r hndS).mp hget
            have hss' : s = s' :=
              List.inj_on_of_nodup_map hndS hsS hs'S (by rw [hsid, hs'id])
            subst hss'
            simp only [bne_iff_ne, ne_eq]
            intro h
            exact hsrole (by rw [hs'role, h])
  · intro id
    show id ∈ (S.filter
        (fun m => (mapGet (buildMap P) m.userID).isNone)).map (fun x => x.userID) ↔ _
    constructor
    · intro hmem
      obtain ⟨s, hsfil, hsid⟩ := List.mem_map.mp hmem
      obtain ⟨hsS, hnone⟩ := List.mem_filter.mp hsfil
      subst hsid
      exact ⟨List.mem_map_of_mem Member.userID hsS,
        (mapGet_buildMap_eq_none P s.userID).mp (Option.isNone_iff_eq_none.mp hnone)⟩
    · rintro ⟨hidS, hidP⟩
      obtain ⟨s, hsS, hsid⟩ := List.mem_map.mp hidS
      apply List.mem_map.mpr
      refine ⟨s, List.mem_filter.mpr ⟨hsS, ?_⟩, hsid⟩
      rw [Option.isNone_iff_eq_none, hsid]
      exact (mapGet_buildMap_eq_none P id).mpr hidP

/-- Concrete stored members: `u1` is an admin, `u2` a member. -/
def membersC5S : List Member := [⟨"u1", "admin"⟩, ⟨"u2", "member"⟩]

/-- Concrete desired members: `u1` demoted to member, `u3` added. -/
def membersC5P : List Member := [⟨"u1", "member"⟩, ⟨"u3", "member"⟩]

/-- A parse table for the two concrete serializations. -/
def parseC5 : String → Option (List Member) := fun s =>
  if s = "S" then some membersC5S
  else if s = "P" then some membersC5P
  else none

/-- Witness for C5 at concrete inputs: the role change of `u1` is an
addition, and `u2` is a removal. -/
theorem c5_member_diff_witness :
    ((⟨"u1", "member"⟩ : Member) ∈
        (computeMemberDiff parseC5 (.value "S") (.value "P")).1 ↔
      (⟨"u1", "member"⟩ : Member) ∈ membersC5P ∧
        (("u1" : String) ∉ membersC5S.map Member.userID ∨
          ∃ s ∈ membersC5S, s.userID = "u1" ∧ s.role ≠ "member")) ∧
    (("u2" : String) ∈ (computeMemberDiff parseC5 (.value "S") (.value "P")).2 ↔
      ("u2" : String) ∈ membersC5S.map Member.userID ∧
        ("u2" : String) ∉ membersC5P.map Member.userID) := by
  constructor
  · exact (c5_member_diff parseC5 "S" "P" membersC5S membersC5P rfl rfl
      (by decide)).1 ⟨"u1", "member"⟩
  · exact (c5_member_diff parseC5 "S" "P" membersC5S membersC5P rfl rfl
      (by decide)).2 "u2"

/-- C10: `computeMemberDiff` is total and treats null, unknown and
unparseable attributes as the empty member list: a malformed plan yields
no additions and a removal for every state member; a malformed state
yields an addition for every planned member and no removals. -/
theorem c10_malformed_members (parse : String → Option (List Member)) :
    (∀ attr, memberList parse .null = [] ∧ memberList parse .unknown = [] ∧
      (∀ s, parse s = none → memberList parse (.value s) = []) ∧
      computeMemberDiff parse .null attr =
        memberDiffCore [] (memberList parse attr)) ∧
    (∀ ss ps S, parse ss = some S → parse ps = none →
      computeMemberDiff parse (.value ss) (.value ps) =
        ([], S.map Member.userID)) ∧
    (∀ ss ps P, parse ss = none → parse ps = some P →
      computeMemberDiff parse (.value ss) (.value ps) = (P, [])) := by
  refine ⟨?_, ?_, ?_⟩
  · intro attr
    exact ⟨rfl, rfl, fun s hs => by simp [memberList, hs], rfl⟩
  · intro ss ps S hS hP
    simp only [computeMemberDiff, memberList, hS, hP, Option.getD_some,
      Option.getD_none, memberDiffCore]
    rw [Prod.mk.injEq]
    refine ⟨rfl, ?_⟩
    have hf : List.filter
        (fun m => (mapGet (buildMap ([] : List Member)) m.userID).isNone) S = S :=
      List.filter_eq_self.mpr (fun m _ => rfl)
    rw [hf]
  · intro ss ps P hS hP
    simp only [computeMemberDiff, memberList, hS, hP, Option.getD_some,
      Option.getD_none, memberDiffCore]
    rw [Prod.mk.injEq]
    refine ⟨?_, rfl⟩
    have hf : List.filter
        (fun m =>
          match mapGet (buildMap ([] : List Member)) m.userID with
          | none => true
          | some existingRole => existingRole != m.role) P = P :=
      List.filter_eq_self.mpr (fun m _ => rfl)
    rw [hf]

/-- Witness for C10 at concrete inputs: a malformed plan against the
concrete state, and a malformed state against the concrete plan. -/
theorem c10_malformed_members_witness :
    computeMemberDiff parseC5 (.value "S") (.value "broken") =
      ([], ["u1", "u2"]) ∧
    computeMemberDiff parseC5 (.value "broken") (.value "P") =
      (membersC5P, []) := by
  constructor
  · exact (c10_malformed_members parseC5).2.1 "S" "broken" membersC5S rfl rfl
  · exact (c10_malformed_members parseC5).2.2 "broken" "P" membersC5P rfl rfl


/-! ## Claim C8 -/

/-- A successfully obtained page decomposes into a successful fetch and a
successful parse. -/
theorem pageOf_some {α : Type} {fetch : String → Except String String}
    {parsePage : String → Except String (EntitiesPage α)} {cursor : String}
    {p : EntitiesPage α} (h : pageOf fetch parsePage cursor = some p) :
    ∃ body, fetch (listURL cursor) = .ok body ∧ parsePage body = .ok p := by
  unfold pageOf at h
  cases hf : fetch (listURL cursor) with
  | error e =>
      rw [hf] at h
      simp at h
  | ok body =>
      rw [hf] at h
      simp only [] at h
      cases hp : parsePage body with
      | error e =>
          rw [hp] at h
          simp at h
      | ok page =>
          rw [hp] at h
          simp only [Option.some.injEq] at h
          exact ⟨body, rfl, by rw [hp, h]⟩

/-- The loop accumulates every page of a finite cursor chain, in order,
given enough fuel. -/
theorem listEntitiesLoop_chain {α : Type} {fetch : String → Except String String}
    {parsePage : String → Except String (EntitiesPage α)}
    {cursor : String} {pages : List (EntitiesPage α)}
    (hchain : CursorChain (pageOf fetch parsePage) cursor pages) :
    ∀ fuel acc, pages.length ≤ fuel →
      listEntitiesLoop fetch parsePage fuel cursor acc =
        some (.ok (acc ++ (pages.map EntitiesPage.entities).flatten)) := by
  induction hchain with
  | @last cursor p hpage hnext =>
      intro fuel acc hlen
      obtain ⟨n, rfl⟩ : ∃ n, fuel = n + 1 := ⟨fuel - 1, by simp at hlen; omega⟩
      obtain ⟨body, hf, hp⟩ := pageOf_some hpage
      rcases hnext with hn | hn <;> simp [listEntitiesLoop, hf, hp, hn]
  | @step cursor p c' ps hpage hnext hne _ ih =>
      intro fuel acc hlen
      obtain ⟨n, rfl⟩ : ∃ n, fuel = n + 1 := ⟨fuel - 1, by simp at hlen; omega⟩
      obtain ⟨body, hf, hp⟩ := pageOf_some hpage
      simp only [listEntitiesLoop, hf, hp, hnext]
      rw [if_neg hne, ih n (acc ++ p.entities) (by simp at hlen; omega)]
      simp

/-- C8: Cursor pagination accumulation. For every finite cursor chain
starting at the empty cursor, `ListEntities` (with fuel at least the
chain length) returns exactly the in-order concatenation of all pages'
items. -/
theorem c8_pagination_accumulation {α : Type}
    (fetch : String → Except String String)
    (parsePage : String → Except String (EntitiesPage α))
    (pages : List (EntitiesPage α)) (fuel : Nat)
    (hchain : CursorChain (pageOf fetch parsePage) "" pages)
    (hfuel : pages.length ≤ fuel) :
    ListEntities fetch parsePage fuel =
      some (.ok (pages.map EntitiesPage.entities).flatten) := by
  rw [ListEntities, listEntitiesLoop_chain hchain fuel [] hfuel]
  simp

/-- The three concrete pages of the simulated endpoint. -/
def pagesC8 : List (EntitiesPage String) :=
  [⟨["e1", "e2"], some "c2"⟩, ⟨["e3"], some "c3"⟩, ⟨["e4", "e5"], none⟩]

/-- A simulated 3-page paginated fetch. -/
def fetchC8 : String → Except String String := fun url =>
  if url = listURL "" then .ok "b1"
  else if url = listURL "c2" then .ok "b2"
  else if url = listURL "c3" then .ok "b3"
  else .error "not found"

/-- Parse table for the three simulated bodies. -/
def parsePageC8 : String → Except String (EntitiesPage String) := fun body =>
  if body = "b1" then .ok ⟨["e1", "e2"], some "c2"⟩
  else if body = "b2" then .ok ⟨["e3"], some "c3"⟩
  else if body = "b3" then .ok ⟨["e4", "e5"], none⟩
  else .error "unmarshal"

/-- Witness for C8: the simulated 3-page endpoint is fully accumulated
into one ordered sequence with no duplicate or missing entries. -/
theorem c8_pagination_accumulation_witness :
    ListEntities fetchC8 parsePageC8 3 =
      some (.ok ["e1", "e2", "e3", "e4", "e5"]) := by
  have hchain : CursorChain (pageOf fetchC8 parsePageC8) "" pagesC8 := by
    refine CursorChain.step rfl rfl (by decide) ?_
    refine CursorChain.step rfl rfl (by decide) ?_
    exact CursorChain.last rfl (Or.inl rfl)
  rw [c8_pagination_accumulation fetchC8 parsePageC8 pagesC8 3 hchain (by decide)]
  rfl


/-! ## Claim C7 -/

/-- C7: Write-once secret preservation. Whenever an API-key Read or a
k8s-agent Read succeeds without removing the resource from state, the
secret field of the resulting state (`raw_key`, resp. `token`) is exactly
the previously persisted value. -/
theorem c7_secret_preservation :
    (∀ (prev : APIKeyState) (fetch : Except String GoAPIKey) (st : APIKeyState),
      apiKeyRead prev fetch = .updated st → st.rawKey = prev.rawKey) ∧
    (∀ (prev : K8sAgentState) (fetch : Except String GoK8sAgent) (st : K8sAgentState),
      k8sAgentRead prev fetch = .updated st → st.token = prev.token) := by
  constructor
  · intro prev fetch st h
    cases fetch with
    | error e => simp [apiKeyRead] at h
    | ok k =>
        simp only [apiKeyRead] at h
        by_cases hrev : k.revokedAt ≠ ""
        · rw [if_pos hrev] at h
          simp at h
        · rw [if_neg hrev] at h
          rw [ReadOutcome.updated.injEq] at h
          subst h
          split_ifs <;> rfl
  · intro prev fetch st h
    cases fetch with
    | error e => simp [k8sAgentRead] at h
    | ok agent =>
        simp only [k8sAgentRead] at h
        by_cases hrev : agent.status = "revoked"
        · rw [if_pos hrev] at h
          simp at h
        · rw [if_neg hrev] at h
          rw [ReadOutcome.updated.injEq] at h
          subst h
          split_ifs <;> rfl

/-- A persisted API-key state holding the creation-time secret. -/
def prevKeyC7 : APIKeyState :=
  ⟨.value "id1", .value "reader", .null, .value ["entities:read"], .null,
    .value "sh_", .value "sh_secret_value", .null, .null⟩

/-- The server's read response for that key (no raw key material). -/
def keyC7 : GoAPIKey :=
  ⟨"id1", "reader", "", "sh_", ["entities:read"], "", "2026-01-01", "", "2025-01-01", ""⟩

/-- The state the API-key Read produces for `prevKeyC7`/`keyC7`. -/
def stKeyC7 : APIKeyState :=
  { prevKeyC7 with
    name := .value "reader"
    keyPfx := .value "sh_"
    expiresAt := .value "2026-01-01"
    createdAt := .value "2025-01-01" }

/-- A persisted k8s-agent state holding the creation-time token. -/
def prevAgentC7 : K8sAgentState :=
  ⟨.value "c1", .value "c1", .value "prod", .null, .null,
    .value "tok_secret_value", .value "tok_", .value "active", .null, .null⟩

/-- The server's read response for that agent (no token). -/
def agentC7 : GoK8sAgent :=
  ⟨7, "c1", "prod", "", "tok_", "active", "online", "2025-01-01", "", ""⟩

/-- The state the k8s-agent Read produces for `prevAgentC7`/`agentC7`. -/
def stAgentC7 : K8sAgentState :=
  { prevAgentC7 with
    id := .value "c1"
    name := .value "prod"
    status := .value "active"
    tokenPfx := .value "tok_"
    createdAt := .value "2025-01-01" }

/-- Witness for C7 at concrete inputs: both reads carry the secret
forward unchanged. -/
theorem c7_secret_preservation_witness :
    stKeyC7.rawKey = prevKeyC7.rawKey ∧ stAgentC7.token = prevAgentC7.token := by
  constructor
  · exact c7_secret_preservation.1 prevKeyC7 (.ok keyC7) stKeyC7 rfl
  · exact c7_secret_preservation.2 prevAgentC7 (.ok agentC7) stAgentC7 rfl

/-! ## Claim C9 -/

/-- `client.UserRole`. -/
structure GoUserRole where
  userID : String
  email : String
  role : String
deriving DecidableEq, Repr

/-- `UserRoleResourceModel`. -/
structure UserRoleState where
  id : TFString
  userID : TFString
  role : TFString
  email : TFString
deriving DecidableEq, Repr

/-- `UserRoleResource.Read` on a loaded state: any `GetUserRole` error
removes the resource from state (no diagnostic); on success the id is
recomputed and a non-empty email copied in. -/
def userRoleRead (prev : UserRoleState) (fetch : Except String GoUserRole) :
    ReadOutcome UserRoleState :=
  match fetch with
  | .error _ => .removed
  | .ok u =>
      let st := { prev with
        id := .value (prev.userID.valueString ++ ":" ++ prev.role.valueString) }
      if u.email ≠ "" then .updated { st with email := .value u.email }
      else .updated st

/-- `client.Integration` fields the Read flow consumes (the config map
and the created-by / last-sync / last-error pass-through fields are
omitted: `mapIntegrationToState` never reads them). -/
structure GoIntegration where
  id : Int
  name : String
  type_ : String
  status : String
  teamID : String
  createdAt : String
  updatedAt : String
deriving DecidableEq, Repr

/-- `IntegrationResourceModel`. -/
structure IntegrationState where
  id : TFString
  name : TFString
  type_ : TFString
  status : TFString
  configJSON : TFString
  teamID : TFString
  createdAt : TFString
  updatedAt : TFString
deriving DecidableEq, Repr

/-- `mapIntegrationToState`: `config_json` is deliberately left untouched
(the API masks sensitive fields). -/
def mapIntegrationToState (integ : GoIntegration) (st : IntegrationState) :
    IntegrationState :=
  let st := { st with
    id := .value (toString integ.id)
    name := .value integ.name
    type_ := .value integ.type_ }
  let st := if integ.status ≠ "" then { st with status := .value integ.status } else st
  let st := if integ.teamID ≠ "" then { st with teamID := .value integ.teamID } else st
  let st := if integ.createdAt ≠ "" then { st with createdAt := .value integ.createdAt } else st
  if integ.updatedAt ≠ "" then { st with updatedAt := .value integ.updatedAt } else st

/-- `IntegrationResource.Read` on a loaded state: `idRes` is the
`strconv.Atoi` outcome on the stored id and the `quote` parameter stands
for `%q` formatting; an unparseable id yields a diagnostic, but any
`GetIntegration` error removes the resource from state with no
diagnostic. -/
def integrationRead (quote : String → String) (prev : IntegrationState)
    (idRes : Except String Int) (fetch : Except String GoIntegration) :
    ReadOutcome IntegrationState :=
  match idRes with
  | .error e =>
      .errored "Invalid ID"
        ("Could not parse integration ID " ++ quote prev.id.valueString ++ ": " ++ e)
  | .ok _ =>
      match fetch with
      | .error _ => .removed
      | .ok integ => .updated (mapIntegrationToState integ prev)

/-- C9 (amended): error propagation. Client-layer errors are not
universally surfaced. In the modelled flows: the k8s agent delete
sequence ignores a revoke failure entirely (the delete call still
proceeds and alone decides the outcome) while a delete failure is
surfaced with context; and the Read flows of the k8s agent, user role
and integration resources each swallow any client error — transport or
HTTP, 5xx included — by silently removing the resource from state with
no diagnostic. The entity, team and API key Read flows do surface client
errors as diagnostics wrapped with operation and identifier context. -/
theorem c9_error_propagation :
    (∀ (prev : K8sAgentState) (e : String) (d : Except String Unit),
      k8sAgentDelete prev (.error e) d = k8sAgentDelete prev (.ok ()) d) ∧
    (∀ (prev : K8sAgentState) (r : Except String Unit) (e : String),
      k8sAgentDelete prev r (.error e) =
        .errored "Error Deleting K8s Agent"
          ("Could not delete K8s agent " ++ prev.clusterID.valueString ++ ": " ++ e)) ∧
    (∀ (prev : K8sAgentState) (e : String),
      k8sAgentRead prev (.error e) = .removed) ∧
    (∀ (prev : UserRoleState) (e : String),
      userRoleRead prev (.error e) = .removed) ∧
    (∀ (quote : String → String) (prev : IntegrationState) (n : Int) (e : String),
      integrationRead quote prev (.ok n) (.error e) = .removed) ∧
    (∀ (IV : Type) (c : EntityCodec IV) (prev : EntityState) (e : String),
      entityRead c prev (.error e) =
        .errored "Error Reading Entity"
          ("Could not read entity " ++ prev.id.valueString ++ ": " ++ e)) ∧
    (∀ (MV : Type) (c : TeamCodec MV) (prev : TeamState) (e : String),
      teamRead c prev (.error e) =
        .errored "Error Reading Team"
          ("Could not read team " ++ prev.id.valueString ++ ": " ++ e)) ∧
    (∀ (prev : APIKeyState) (e : String),
      apiKeyRead prev (.error e) =
        .errored "Error Reading API Key"
          ("Could not read API key " ++ prev.id.valueString ++ ": " ++ e)) := by
  refine ⟨?_, ?_, ?_, ?_, ?_, ?_, ?_, ?_⟩
  · intro prev e d
    cases d <;> rfl
  · intro prev r e
    cases r <;> rfl
  · intro prev e
    rfl
  · intro prev e
    rfl
  · intro quote prev n e
    rfl
  · intro IV c prev e
    rfl
  · intro MV c prev e
    rfl
  · intro prev e
    rfl

/-- A persisted user-role binding. -/
def prevRoleC9 : UserRoleState :=
  ⟨.value "u7:admin", .value "u7", .value "admin", .null⟩

/-- A persisted integration state. -/
def prevIntC9 : IntegrationState :=
  ⟨.value "7", .value "gh", .value "github", .null, .value "cfg", .null, .null, .null⟩

/-- Counterexample to C9 as stated: a client error — here an HTTP 500,
which the transport has already retried and surfaced — during the k8s
agent, user role, or integration Read is not surfaced as a diagnostic;
each flow silently removes the resource from state instead. -/
theorem c9_counterexample :
    k8sAgentRead prevAgentC7 (.error "HTTP 500: internal error") = .removed ∧
    userRoleRead prevRoleC9 (.error "HTTP 500: internal error") = .removed ∧
    integrationRead (fun s => s) prevIntC9 (.ok 7)
      (.error "HTTP 500: internal error") = .removed ∧
    (ReadOutcome.removed : ReadOutcome K8sAgentState) ≠
      .errored "Error Reading K8s Agent"
        "Could not read K8s agent c1: HTTP 500: internal error" := by
  exact ⟨rfl, rfl, rfl, by simp⟩

/-- Witness for the amended C9 at concrete inputs. -/
theorem c9_error_propagation_witness :
    k8sAgentDelete prevAgentC7 (.error "revoke failed") (.ok ()) =
      k8sAgentDelete prevAgentC7 (.ok ()) (.ok ()) ∧
    k8sAgentDelete prevAgentC7 (.ok ()) (.error "boom") =
      .errored "Error Deleting K8s Agent"
        ("Could not delete K8s agent " ++
          (prevAgentC7.clusterID).valueString ++ ": " ++ "boom") ∧
    k8sAgentRead prevAgentC7 (.error "timeout") = .removed ∧
    userRoleRead prevRoleC9 (.error "timeout") = .removed ∧
    integrationRead (fun s => s) prevIntC9 (.ok 7) (.error "timeout") = .removed ∧
    apiKeyRead prevKeyC7 (.error "timeout") =
      .errored "Error Reading API Key"
        ("Could not read API key " ++ (prevKeyC7.id).valueString ++ ": " ++ "timeout") := by
  refine ⟨?_, ?_, ?_, ?_, ?_, ?_⟩
  · exact c9_error_propagation.1 prevAgentC7 "revoke failed" (.ok ())
  · exact c9_error_propagation.2.1 prevAgentC7 (.ok ()) "boom"
  · exact c9_error_propagation.2.2.1 prevAgentC7 "timeout"
  · exact c9_error_propagation.2.2.2.1 prevRoleC9 "timeout"
  · exact c9_error_propagation.2.2.2.2.1 (fun s => s) prevIntC9 7 "timeout"
  · exact c9_error_propagation.2.2.2.2.2.2.2 prevKeyC7 "timeout"

/-! ## Claim C6 -/

/-- C6: Preservation of the prior serialization on Read. For every entity
Read over each order-insensitive collection field (relations, links,
interfaces, licenses) and every team Read over members: when the
previously stored serialization and the freshly mapped one are both
non-null and equivalent under that field's equivalence function, the state
written back holds the previously stored serialization verbatim. -/
theorem c6_preserve_prior_serialization :
    (∀ (IV : Type) (c : EntityCodec IV) (prev : EntityState) (entity : GoEntity IV)
        (st : EntityState) (p f : String),
      entityRead c prev (.ok entity) = .updated st →
      prev.relations = .value p →
      (mapEntityToState c entity prev).relations = .value f →
      relationsEquivalent c.parseRels p f = true →
      st.relations = .value p) ∧
    (∀ (IV : Type) (c : EntityCodec IV) (prev : EntityState) (entity : GoEntity IV)
        (st : EntityState) (p f : String),
      entityRead c prev (.ok entity) = .updated st →
      prev.links = .value p →
      (mapEntityToState c entity prev).links = .value f →
      linksEquivalent c.parseLinks p f = true →
      st.links = .value p) ∧
    (∀ (IV : Type) (c : EntityCodec IV) (prev : EntityState) (entity : GoEntity IV)
        (st : EntityState) (p f : String),
      entityRead c prev (.ok entity) = .updated st →
      prev.interfaces = .value p →
      (mapEntityToState c entity prev).interfaces = .value f →
      interfacesEquivalent c.parseIfaces c.marshalIfaces p f = true →
      st.interfaces = .value p) ∧
    (∀ (IV : Type) (c : EntityCodec IV) (prev : EntityState) (entity : GoEntity IV)
        (st : EntityState) (p f : String),
      entityRead c prev (.ok entity) = .updated st →
      prev.licenses = .value p →
      (mapEntityToState c entity prev).licenses = .value f →
      licensesEquivalent c.parseLics p f = true →
      st.licenses = .value p) ∧
    (∀ (MV : Type) (c : TeamCodec MV) (prev : TeamState) (team : GoTeam MV)
        (st : TeamState) (p f : String),
      teamRead c prev (.ok team) = .updated st →
      prev.members = .value p →
      (mapTeamToState c team prev).members = .value f →
      membersEquivalent c.parseMembers p f = true →
      st.members = .value p) := by
  refine ⟨?_, ?_, ?_, ?_, ?_⟩
  · intro IV c prev entity st p f h hprev hmap heq
    have hcond : ¬prev.relations.isNull = true ∧
        ¬(mapEntityToState c entity prev).relations.isNull = true ∧
        relationsEquivalent c.parseRels prev.relations.valueString
          (mapEntityToState c entity prev).relations.valueString = true := by
      refine ⟨?_, ?_, ?_⟩
      · rw [hprev]; simp [TFString.isNull]
      · rw [hmap]; simp [TFString.isNull]
      · rw [hprev, hmap]; simpa [TFString.valueString] using heq
    simp only [entityRead, ReadOutcome.updated.injEq] at h
    subst h
    simp only [apply_ite EntityState.relations, ite_self]
    rw [if_pos hcond]
    exact hprev
  · intro IV c prev entity st p f h hprev hmap heq
    have hcond : ¬prev.links.isNull = true ∧
        ¬(mapEntityToState c entity prev).links.isNull = true ∧
        linksEquivalent c.parseLinks prev.links.valueString
          (mapEntityToState c entity prev).links.valueString = true := by
      refine ⟨?_, ?_, ?_⟩
      · rw [hprev]; simp [TFString.isNull]
      · rw [hmap]; simp [TFString.isNull]
      · rw [hprev, hmap]; simpa [TFString.valueString] using heq
    simp only [entityRead, ReadOutcome.updated.injEq] at h
    subst h
    simp only [apply_ite EntityState.links, ite_self]
    rw [if_pos hcond]
    exact hprev
  · intro IV c prev entity st p f h hprev hmap heq
    have hcond : ¬prev.interfaces.isNull = true ∧
        ¬(mapEntityToState c entity prev).interfaces.isNull = true ∧
        interfacesEquivalent c.parseIfaces c.marshalIfaces prev.interfaces.valueString
          (mapEntityToState c entity prev).interfaces.valueString = true := by
      refine ⟨?_, ?_, ?_⟩
      · rw [hprev]; simp [TFString.isNull]
      · rw [hmap]; simp [TFString.isNull]
      · rw [hprev, hmap]; simpa [TFString.valueString] using heq
    simp only [entityRead, ReadOutcome.updated.injEq] at h
    subst h
    simp only [apply_ite EntityState.interfaces, ite_self]
    rw [if_pos hcond]
    exact hprev
  · intro IV c prev entity st p f h hprev hmap heq
    have hcond : ¬prev.licenses.isNull = true ∧
        ¬(mapEntityToState c entity prev).licenses.isNull = true ∧
        licensesEquivalent c.parseLics prev.licenses.valueString
          (mapEntityToState c entity prev).licenses.valueString = true := by
      refine ⟨?_, ?_, ?_⟩
      · rw [hprev]; simp [TFString.isNull]
      · rw [hmap]; simp [TFString.isNull]
      · rw [hprev, hmap]; simpa [TFString.valueString] using heq
    simp only [entityRead, ReadOutcome.updated.injEq] at h
    subst h
    simp only [apply_ite EntityState.licenses, ite_self]
    rw [if_pos hcond]
    exact hprev
  · intro MV c prev team st p f h hprev hmap heq
    have hcond : ¬prev.members.isNull = true ∧
        ¬(mapTeamToState c team prev).members.isNull = true ∧
        membersEquivalent c.parseMembers prev.members.valueString
          (mapTeamToState c team prev).members.valueString = true := by
      refine ⟨?_, ?_, ?_⟩
      · rw [hprev]; simp [TFString.isNull]
      · rw [hmap]; simp [TFString.isNull]
      · rw [hprev, hmap]; simpa [TFString.valueString] using heq
    simp only [teamRead, ReadOutcome.updated.injEq] at h
    subst h
    simp only [apply_ite TeamState.members, ite_self]
    rw [if_pos hcond]
    exact hprev


/-- A concrete entity codec over a trivial interfaces value. -/
def codecC6 : EntityCodec Unit where
  marshalLinks _ := "L"
  marshalRels _ := "R"
  marshalLics _ := "C"
  marshalIfaces _ := some "I"
  ifaceNonempty _ := true
  parseRels _ := some [⟨"depends_on", "service:a"⟩]
  parseLinks _ := some [⟨"docs", "http://d", ""⟩]
  parseLics _ := some [⟨"t", "", "", "", 0, "", "", ""⟩]
  parseIfaces _ := some ()

/-- A previously persisted entity state whose collection fields hold the
user's original serializations. -/
def prevC6 : EntityState :=
  ⟨.value "svc", .value "svc", .value "service", .null, .null, .null, .null,
    .null, .value "Lprev", .value "Rprev", .value "Cprev",
    .value "CHANGELOG.md", .value "Iprev", .null, .null, .null⟩

/-- The entity the server returns: same data, server-side ordering. -/
def entityC6 : GoEntity Unit :=
  ⟨"svc", "svc", "service", "", "", [], "", [], [⟨"docs", "http://d", ""⟩],
    [⟨"depends_on", "service", "a", ""⟩],
    some ⟨some "CHANGELOG.md", [⟨"t", "", "", "", 0, "", "", ""⟩]⟩,
    some (), "", "", ""⟩

/-- A concrete team codec. -/
def codecT6 : TeamCodec Unit where
  marshalMeta _ := some "MD"
  metaNonempty _ := true
  marshalMembers _ := "M"
  parseMembers _ := some [⟨"u1", "admin"⟩]

/-- A previously persisted team state. -/
def prevT6 : TeamState :=
  ⟨.value "t1", .value "team", .null, .value "team", .null, .null,
    .value "Mprev", true, 1, .null, .null⟩

/-- The team the server returns. -/
def teamT6 : GoTeam Unit :=
  ⟨"t1", "team", "", "team", "", none, true, 1, [⟨"u1", "admin"⟩], "", ""⟩

/-- Witness for C6 at concrete inputs: reading `entityC6` over `prevC6`
(and `teamT6` over `prevT6`) writes back the previously stored
serializations of all five collection fields. -/
theorem c6_preserve_prior_serialization_witness :
    prevC6.relations = .value "Rprev" ∧
    prevC6.links = .value "Lprev" ∧
    prevC6.interfaces = .value "Iprev" ∧
    prevC6.licenses = .value "Cprev" ∧
    prevT6.members = .value "Mprev" := by
  refine ⟨?_, ?_, ?_, ?_, ?_⟩
  · exact c6_preserve_prior_serialization.1 Unit codecC6 prevC6 entityC6
      prevC6 "Rprev" "R" rfl rfl rfl rfl
  · exact c6_preserve_prior_serialization.2.1 Unit codecC6 prevC6 entityC6
      prevC6 "Lprev" "L" rfl rfl rfl rfl
  · exact c6_preserve_prior_serialization.2.2.1 Unit codecC6 prevC6 entityC6
      prevC6 "Iprev" "I" rfl rfl rfl rfl
  · exact c6_preserve_prior_serialization.2.2.2.1 Unit codecC6 prevC6 entityC6
      prevC6 "Cprev" "C" rfl rfl rfl rfl
  · exact c6_preserve_prior_serialization.2.2.2.2 Unit codecT6 prevT6 teamT6
      prevT6 "Mprev" "M" rfl rfl rfl rfl

end Shoehorn
